import Mathlib

/-
Shallow embedding of the trade-lifecycle / risk-management state machine of
`src/app/strategies.py` (class `GaussianKijunStrategy`).

Modelling conventions:
* Python floats are modelled as rationals (ℚ); exact arithmetic.
* A Python value that may be `None`/NaN is modelled as `Option ℚ`
  (`pd.isna(adx)` is `adx = none`).
* A Python expression that raises an uncaught exception (division by zero in
  the sizer) makes the enclosing call return `none : Option _`.
* The broker (backtrader) is external: the current position size and account
  equity are inputs carried on each bar, and the strategy's calls to
  `self.buy` / `self.sell` / `self.close` are modelled as emitted `Intent`s.
* String glue (the `f"..."` log texts and the `'long@price'` parsing of
  external trades) is not re-modelled: close reasons are kept as the fixed
  prefix of the source's f-strings, and an external trade carries its parsed
  price as a field next to the raw `entry` string.
-/

namespace GaussianKijun

/-- Executable floor on ℚ (agrees with `Int.floor`, see `rfloor_eq`). -/
def rfloor (q : ℚ) : ℤ := q.num / q.den

/-- Executable absolute value on ℚ (agrees with `abs`, see `rabs_eq`). -/
def rabs (q : ℚ) : ℚ := if q < 0 then -q else q

/-- Executable maximum on ℚ (agrees with `max`, see `rmax_eq`). -/
def rmax (a b : ℚ) : ℚ := if a ≤ b then b else a

/-- Executable minimum on ℚ (agrees with `min`, see `rmin_eq`). -/
def rmin (a b : ℚ) : ℚ := if a ≤ b then a else b

/-- Executable maximum on ℤ (agrees with `max`, see `imax_eq`). -/
def imax (a b : ℤ) : ℤ := if a ≤ b then b else a

theorem rfloor_eq (q : ℚ) : rfloor q = ⌊q⌋ := Rat.floor_def.symm

theorem rabs_eq (q : ℚ) : rabs q = |q| := by
  rw [rabs]
  split_ifs with h
  · exact (abs_of_neg h).symm
  · exact (abs_of_nonneg (not_lt.mp h)).symm

theorem rmax_eq (a b : ℚ) : rmax a b = max a b := by
  rw [rmax]
  split_ifs with h
  · exact (max_eq_right h).symm
  · exact (max_eq_left (le_of_not_le h)).symm

theorem rmin_eq (a b : ℚ) : rmin a b = min a b := by
  rw [rmin]
  split_ifs with h
  · exact (min_eq_left h).symm
  · exact (min_eq_right (le_of_not_le h)).symm

theorem imax_eq (a b : ℤ) : imax a b = max a b := by
  rw [imax]
  split_ifs with h
  · exact (max_eq_right h).symm
  · exact (max_eq_left (le_of_not_le h)).symm

/-- Python `int()` applied to a float: truncation toward zero. -/
def pytrunc (q : ℚ) : ℤ := if 0 ≤ q then rfloor q else -rfloor (-q)

/-- Python `a or b` for an optional float `a`: `None` and `0.0` are falsy,
so the fallback `b` is returned for them (used for
`self.highest_since_entry or self.entry_price` and its short mirror). -/
def pyOr (a : Option ℚ) (b : ℚ) : ℚ :=
  match a with
  | none => b
  | some x => if x = 0 then b else x

/-- The fields of `TradingConfig` (src/config/config.py) read by the strategy. -/
structure TradingConfig where
  tp_r_multiple : ℚ
  trailing_atr_mult : ℚ
  adx_threshold : ℚ
  risk_pct : ℚ
  max_trades_per_day : ℕ
  min_bars : ℕ
  contract_multiplier : ℚ
  fixed_position_size : ℚ
deriving DecidableEq

/-- The default `TradingConfig` values of src/config/config.py
(3.768 = 471/125, 0.01 = 1/100). -/
def cfg0 : TradingConfig :=
  { tp_r_multiple := 2
    trailing_atr_mult := 4
    adx_threshold := 19
    risk_pct := 1 / 100
    max_trades_per_day := 5
    min_bars := 200
    contract_multiplier := 471 / 125
    fixed_position_size := 20000 }

/-- The default config with `fixed_position_size = 0`, i.e. risk-based sizing. -/
def cfg0risk : TradingConfig := { cfg0 with fixed_position_size := 0 }

/-- One element of the `external_trades` strategy parameter: a dict produced by
the agent.  `entry` is the raw string under the `'entry'` key (`""` models a
missing/falsy value), `price` is the float the source parses out of it via
`trade['entry'].split('@')[1]`, `direction` defaults to `"long"`, and `size`
is the optional `'size'` key. -/
structure ExternalTrade where
  entry : String
  price : ℚ
  direction : String
  size : Option ℤ
deriving DecidableEq

/-- Per-bar input to `next`: prices, indicator lines (with `adx = none`
modelling NaN, the one indicator the source tests with `pd.isna`), the feed
length `len(self.data)`, the calendar date, and the broker-reported position
size `self.position.size` and equity `self.broker.getvalue()`. -/
structure Bar where
  date : ℕ
  barsSoFar : ℕ
  close : ℚ
  prev_close : ℚ
  high : ℚ
  low : ℚ
  gauss : ℚ
  gauss_prev : ℚ
  kijun : ℚ
  kijun_prev : ℚ
  vapi : ℚ
  vapi_prev : ℚ
  adx : Option ℚ
  smma : ℚ
  atr : ℚ
  swing_low : ℚ
  swing_high : ℚ
  pos : ℤ
  equity : ℚ

/-- The mutable strategy state set up in `__init__` of `GaussianKijunStrategy`.
`exit_order = true` models `self.exit_order` holding a live order object,
`entry_order` likewise (the source only ever writes it).  `external_trades`
is the (immutable) strategy parameter; `executed_external` models the
`self.executed_external` set as a list. -/
structure StratState where
  today : Option ℕ
  trades_today : ℕ
  entry_price : Option ℚ
  stop_price : Option ℚ
  initial_atr : Option ℚ
  entry_risk : Option ℚ
  tp_price : Option ℚ
  breakeven_active : Bool
  highest_since_entry : Option ℚ
  lowest_since_entry : Option ℚ
  close_reason : String
  entry_order : Bool
  exit_order : Bool
  external_trades : List ExternalTrade
  executed_external : List String
deriving DecidableEq

/-- The strategy state right after `__init__`. -/
def initState (ext : List ExternalTrade) : StratState :=
  { today := none
    trades_today := 0
    entry_price := none
    stop_price := none
    initial_atr := none
    entry_risk := none
    tp_price := none
    breakeven_active := false
    highest_since_entry := none
    lowest_since_entry := none
    close_reason := ""
    entry_order := false
    exit_order := false
    external_trades := ext
    executed_external := [] }

/-- An order intent emitted to the broker: a market entry (`self.buy` /
`self.sell` in `_enter_long` / `_enter_short`), the TP1 scale-out limit order
(30% at `tp_price`), or a full close (`self.close()`). -/
inductive Intent where
  | enter (isLong : Bool) (size : ℤ)
  | tp1 (isBuy : Bool) (size : ℤ) (price : ℚ)
  | closeAll
deriving DecidableEq

/-- Is this intent a market entry? -/
def Intent.isEnter : Intent → Bool
  | .enter _ _ => true
  | _ => false

/-- Is this intent the TP1 scale-out limit order? -/
def Intent.isTP1 : Intent → Bool
  | .tp1 _ _ _ => true
  | _ => false

/-- Is this intent a full close? -/
def Intent.isClose : Intent → Bool
  | .closeAll => true
  | _ => false

/-- Number of market-entry intents in an emitted batch. -/
def countEnter (out : List Intent) : ℕ := out.countP Intent.isEnter

/-- Number of TP1 scale-out intents in an emitted batch. -/
def countTP1 (out : List Intent) : ℕ := out.countP Intent.isTP1

/-- Number of full-close intents in an emitted batch. -/
def countClose (out : List Intent) : ℕ := out.countP Intent.isClose

/-- `calculate_size` (strategies.py lines 314-331): risk-based sizing.
Returns `none` for the uncaught `ZeroDivisionError` when
`distance * contract_multiplier = 0` with `distance > 0`.  The `short`
parameter exists in the source and is unused there too. -/
def calculate_size (cfg : TradingConfig) (equity entry stop : ℚ) (short : Bool) :
    Option ℤ :=
  let _ := short
  let risk_amount := equity * cfg.risk_pct
  let distance := rabs (entry - stop)
  if distance ≤ 0 then some 0
  else if distance * cfg.contract_multiplier = 0 then none
  else some (imax 0 (rfloor (risk_amount / (distance * cfg.contract_multiplier))))

/-- `_determine_size` (strategies.py lines 152-166): fixed-USD sizing when
`cfg.fixed_position_size > 0` (`max(1, int(usd / entry))`, `none` for the
uncaught `ZeroDivisionError` at `entry = 0`), else `calculate_size`. -/
def determine_size (cfg : TradingConfig) (equity entry stop : ℚ) (short : Bool) :
    Option ℤ :=
  if 0 < cfg.fixed_position_size then
    if entry = 0 then none
    else some (imax 1 (pytrunc (cfg.fixed_position_size / entry)))
  else calculate_size cfg equity entry stop short

/-- `_enter_long` (strategies.py lines 168-187): emit a market buy and set the
position fields; increments `trades_today`. -/
def enter_long (cfg : TradingConfig) (s : StratState) (close : ℚ) (size : ℤ)
    (stop atr : ℚ) : StratState × List Intent :=
  ({ s with
      entry_order := true
      entry_price := some close
      stop_price := some stop
      initial_atr := some atr
      entry_risk := some (close - stop)
      tp_price := some (close + cfg.tp_r_multiple * (close - stop))
      breakeven_active := false
      highest_since_entry := some close
      trades_today := s.trades_today + 1 },
    [Intent.enter true size])

/-- `_enter_short` (strategies.py lines 189-208): emit a market sell and set
the position fields; increments `trades_today`. -/
def enter_short (cfg : TradingConfig) (s : StratState) (close : ℚ) (size : ℤ)
    (stop atr : ℚ) : StratState × List Intent :=
  ({ s with
      entry_order := true
      entry_price := some close
      stop_price := some stop
      initial_atr := some atr
      entry_risk := some (stop - close)
      tp_price := some (close - cfg.tp_r_multiple * (stop - close))
      breakeven_active := false
      lowest_since_entry := some close
      trades_today := s.trades_today + 1 },
    [Intent.enter false size])

/-- Long branch of `_update_position_management` (strategies.py lines
223-253), with the three guarded fields already destructured: update
`highest_since_entry`, breakeven at `entry + tp_r_multiple * risk`, ATR
trailing stop from the entry ATR, TP1 scale-out (30%, floor) guarded by
`exit_order is None`, then the stop-loss check guarded by an empty
`close_reason`. -/
def mgmtLong (cfg : TradingConfig) (s : StratState) (pos : ℤ)
    (entry stop0 risk close high : ℚ) : StratState × List Intent :=
  let hi := rmax (pyOr s.highest_since_entry entry) high
  let beFire : Bool := decide (entry + cfg.tp_r_multiple * risk ≤ close) && !s.breakeven_active
  let stop1 := if beFire then entry else stop0
  let be1 := if beFire then true else s.breakeven_active
  let stop2 :=
    match s.initial_atr with
    | some a => if stop1 < hi - a * cfg.trailing_atr_mult then hi - a * cfg.trailing_atr_mult else stop1
    | none => stop1
  let tpPair : List Intent × Bool :=
    match s.tp_price with
    | some tp =>
      if tp ≤ high ∧ s.exit_order = false then
        let tp_size : ℤ := rfloor ((pos.natAbs : ℚ) * (3 / 10))
        if 0 < tp_size then ([Intent.tp1 false tp_size tp], true) else ([], s.exit_order)
      else ([], s.exit_order)
    | none => ([], s.exit_order)
  let slPair : List Intent × String :=
    if close ≤ stop2 ∧ s.close_reason = "" then ([Intent.closeAll], "Stop loss LONG")
    else ([], s.close_reason)
  ({ s with
      highest_since_entry := some hi
      stop_price := some stop2
      breakeven_active := be1
      exit_order := tpPair.2
      close_reason := slPair.2 },
    tpPair.1 ++ slPair.1)

/-- Short branch of `_update_position_management` (strategies.py lines
255-285): mirror of `mgmtLong` on `lowest_since_entry` and `low`. -/
def mgmtShort (cfg : TradingConfig) (s : StratState) (pos : ℤ)
    (entry stop0 risk close low : ℚ) : StratState × List Intent :=
  let lo := rmin (pyOr s.lowest_since_entry entry) low
  let beFire : Bool := decide (close ≤ entry - cfg.tp_r_multiple * risk) && !s.breakeven_active
  let stop1 := if beFire then entry else stop0
  let be1 := if beFire then true else s.breakeven_active
  let stop2 :=
    match s.initial_atr with
    | some a => if lo + a * cfg.trailing_atr_mult < stop1 then lo + a * cfg.trailing_atr_mult else stop1
    | none => stop1
  let tpPair : List Intent × Bool :=
    match s.tp_price with
    | some tp =>
      if low ≤ tp ∧ s.exit_order = false then
        let tp_size : ℤ := rfloor ((pos.natAbs : ℚ) * (3 / 10))
        if 0 < tp_size then ([Intent.tp1 true tp_size tp], true) else ([], s.exit_order)
      else ([], s.exit_order)
    | none => ([], s.exit_order)
  let slPair : List Intent × String :=
    if stop2 ≤ close ∧ s.close_reason = "" then ([Intent.closeAll], "Stop loss SHORT")
    else ([], s.close_reason)
  ({ s with
      lowest_since_entry := some lo
      stop_price := some stop2
      breakeven_active := be1
      exit_order := tpPair.2
      close_reason := slPair.2 },
    tpPair.1 ++ slPair.1)

/-- `_update_position_management` (strategies.py lines 210-285): return
unchanged with no intents if any of `entry_price`, `stop_price`, `entry_risk`
is `None`; otherwise run the long branch when `position.size > 0`, else the
short branch.  The `kijun_v` parameter is passed by the caller and unused in
the body, exactly as in the source. -/
def update_position_management (cfg : TradingConfig) (s : StratState) (pos : ℤ)
    (close high low kijun_v : ℚ) : StratState × List Intent :=
  let _ := kijun_v
  match s.entry_price, s.stop_price, s.entry_risk with
  | some entry, some stop0, some risk =>
    if 0 < pos then mgmtLong cfg s pos entry stop0 risk close high
    else mgmtShort cfg s pos entry stop0 risk close low
  | _, _, _ => (s, [])

/-- Day-rollover bookkeeping at the top of `next` (strategies.py lines
68-71): reset `trades_today` when the bar's calendar date differs from
`self.today` (or `self.today` is still `None`). -/
def dayRoll (s : StratState) (date : ℕ) : StratState :=
  if s.today = some date then s
  else { s with today := some date, trades_today := 0 }

/-- The `for trade in self.external_trades` loop of `next` (strategies.py
lines 103-118), up to the point where a trade is applied: find the first
trade with a truthy, not-yet-executed `entry` whose price is within half an
ATR of the current close and whose direction is `"long"` or `"short"`.
The `size` default `self._determine_size(entry_price, entry_price - atr)` is
evaluated eagerly for every candidate (Python's `dict.get`), so its
`ZeroDivisionError` (`none`) propagates; otherwise returns
`some (some (trade, size))` for the first applicable trade or `some none`
when the loop falls through. -/
def scanExternal (cfg : TradingConfig) (equity : ℚ) (executed : List String)
    (close atr : ℚ) : List ExternalTrade → Option (Option (ExternalTrade × ℤ))
  | [] => some none
  | t :: ts =>
    if t.entry ≠ "" ∧ t.entry ∉ executed then
      match determine_size cfg equity t.price (t.price - atr) false with
      | none => none
      | some dflt =>
        let size := t.size.getD dflt
        if (t.direction = "long" ∨ t.direction = "short") ∧ rabs (close - t.price) < atr * (1 / 2) then
          some (some (t, size))
        else scanExternal cfg equity executed close atr ts
    else scanExternal cfg equity executed close atr ts

/-- SHORT signal entry (strategies.py lines 134-139), reached when the LONG
block did not enter: on the short condition, size the trade and enter if the
size is positive.  `none` models an uncaught sizing exception. -/
def shortEntryStep (cfg : TradingConfig) (s : StratState) (b : Bar) :
    Option (StratState × List Intent) :=
  if ¬ b.gauss_prev < b.gauss ∧ ¬ b.vapi_prev < b.vapi ∧ b.close < b.smma ∧
      b.close < b.gauss ∧ b.close < b.swing_high then
    match determine_size cfg b.equity b.close b.swing_high true with
    | none => none
    | some size =>
      if 0 < size then some (enter_short cfg s b.close size b.swing_high b.atr)
      else some (s, [])
  else some (s, [])

/-- The `if not self.position:` branch of `next` (strategies.py lines
123-139): clear `exit_order` and `close_reason`, then try the LONG entry
condition (falling through to the SHORT check when it does not enter). -/
def flatStep (cfg : TradingConfig) (s : StratState) (b : Bar) :
    Option (StratState × List Intent) :=
  let s := { s with exit_order := false, close_reason := "" }
  if b.gauss_prev < b.gauss ∧ b.vapi_prev < b.vapi ∧ b.smma < b.close ∧
      b.gauss < b.close ∧ b.swing_low < b.close then
    match determine_size cfg b.equity b.close b.swing_low false with
    | none => none
    | some size =>
      if 0 < size then some (enter_long cfg s b.close size b.swing_low b.atr)
      else shortEntryStep cfg s b
  else shortEntryStep cfg s b

/-- The in-position branch of `next` (strategies.py lines 140-150): run
`_update_position_management`, then the two-bar trend-break checks, each
guarded by `not self.close_reason`. -/
def openStep (cfg : TradingConfig) (s : StratState) (b : Bar) :
    StratState × List Intent :=
  let p := update_position_management cfg s b.pos b.close b.high b.low b.kijun
  let s1 := p.1
  let out1 := p.2
  if 0 < b.pos ∧ b.close < b.kijun ∧ b.prev_close < b.kijun_prev ∧ s1.close_reason = "" then
    ({ s1 with close_reason := "Trendbreak LONG (close under Kijun)" },
      out1 ++ [Intent.closeAll])
  else if b.pos < 0 ∧ b.kijun < b.close ∧ b.kijun_prev < b.prev_close ∧ s1.close_reason = "" then
    ({ s1 with close_reason := "Trendbreak SHORT (close over Kijun)" },
      out1 ++ [Intent.closeAll])
  else (s1, out1)

/-- `next` (strategies.py lines 63-150): day rollover, warm-up guard
(`len(self.data) < min_bars`), NaN/threshold ADX guard, daily-cap guard, the
external-trades override loop (note: it runs before the position check), then
the flat (entry) branch or the in-position (management + trend-break) branch.
Result `none` models an uncaught exception from the sizer. -/
def next (cfg : TradingConfig) (s0 : StratState) (b : Bar) :
    Option (StratState × List Intent) :=
  let s := dayRoll s0 b.date
  if b.barsSoFar < cfg.min_bars then some (s, [])
  else
    match b.adx with
    | none => some (s, [])
    | some adxv =>
      if adxv ≤ cfg.adx_threshold then some (s, [])
      else if cfg.max_trades_per_day ≤ s.trades_today then some (s, [])
      else
        match scanExternal cfg b.equity s.executed_external b.close b.atr s.external_trades with
        | none => none
        | some (some (t, size)) =>
          if t.direction = "long" then
            some (enter_long cfg
              { s with executed_external := t.entry :: s.executed_external }
              b.close size b.swing_low b.atr)
          else
            some (enter_short cfg
              { s with executed_external := t.entry :: s.executed_external }
              b.close size b.swing_high b.atr)
        | some none =>
          if b.pos = 0 then flatStep cfg s b
          else some (openStep cfg s b)

/-- Feed a list of bars through `next`, accumulating all emitted intents.
`none` as soon as one bar raises. -/
def runBars (cfg : TradingConfig) : StratState → List Bar →
    Option (StratState × List Intent)
  | s, [] => some (s, [])
  | s, b :: bs =>
    match next cfg s b with
    | none => none
    | some (s1, out1) =>
      match runBars cfg s1 bs with
      | none => none
      | some (s2, out2) => some (s2, out1 ++ out2)

/-- Order statuses distinguished by `notify_order`. -/
inductive OrderStatus where
  | completed
  | canceled
  | rejected
  | other
deriving DecidableEq

/-- `notify_order` (strategies.py lines 287-302): on `Completed`, `Canceled`
or `Rejected`, clear `self.exit_order` when the notification is for the
in-flight exit order. -/
def notify_order (s : StratState) (isExitOrder : Bool) (st : OrderStatus) :
    StratState :=
  match st with
  | .completed => if isExitOrder ∧ s.exit_order then { s with exit_order := false } else s
  | .canceled => if isExitOrder ∧ s.exit_order then { s with exit_order := false } else s
  | .rejected => if isExitOrder ∧ s.exit_order then { s with exit_order := false } else s
  | .other => s

/-- `notify_trade` (strategies.py lines 304-312): on a closed trade, reset
`close_reason`. -/
def notify_trade (s : StratState) (isclosed : Bool) : StratState :=
  if isclosed then { s with close_reason := "" } else s

/-- The current stop price with default 0 (only read where the stop is known
to be set). -/
def stopVal (s : StratState) : ℚ := s.stop_price.getD 0

theorem one_le_imax_one (x : ℤ) : 1 ≤ imax 1 x := by
  rw [imax]
  split_ifs with h
  · exact h
  · exact le_refl 1

theorem zero_le_imax_zero (x : ℤ) : 0 ≤ imax 0 x := by
  rw [imax]
  split_ifs with h
  · exact h
  · exact le_refl 0

/-- C7: the position sizer satisfies the spec's two concrete examples: fixed
notional 20000 at entry 400 gives 50 contracts; risk-based sizing with equity
100000, risk 1%, entry 400, stop 390, contract multiplier 3.768 gives
floor(1000 / 37.68) = 26. -/
theorem C7_sizer_examples :
    determine_size cfg0 100000 400 390 false = some 50 ∧
    determine_size cfg0risk 100000 400 390 false = some 26 := by
  constructor
  · simp only [determine_size, calculate_size, cfg0, pytrunc, rfloor_eq, rabs_eq, imax_eq]
    norm_num
  · simp only [determine_size, calculate_size, cfg0risk, cfg0, pytrunc, rfloor_eq, rabs_eq,
      imax_eq]
    norm_num

/-- C6 counterexample: under the default configuration (fixed notional
20000 > 0), a degenerate setup with entry = stop = 400 (stop distance 0)
returns 50, not 0, refuting "returns exactly 0 whenever the stop distance is
≤ 0" quantified over every configuration. -/
theorem C6_counterexample :
    |(400 : ℚ) - 400| ≤ 0 ∧
    determine_size cfg0 100000 400 400 false = some 50 ∧
    determine_size cfg0 100000 400 400 false ≠ some 0 := by
  refine ⟨by norm_num, ?_, ?_⟩ <;>
    simp only [determine_size, calculate_size, cfg0, pytrunc, rfloor_eq, rabs_eq, imax_eq] <;>
    norm_num

/-- C6 (amended): whenever the sizer returns, the returned size is
non-negative; under risk-based sizing (fixed notional ≤ 0) it returns exactly
0 when the stop distance is ≤ 0; under fixed-notional sizing it returns at
least 1 regardless of the stop distance. -/
theorem C6_amended :
    (∀ cfg equity e st sh n, determine_size cfg equity e st sh = some n → 0 ≤ n) ∧
    (∀ cfg equity e st sh, cfg.fixed_position_size ≤ 0 → |e - st| ≤ 0 →
      determine_size cfg equity e st sh = some 0) ∧
    (∀ cfg equity e st sh n, 0 < cfg.fixed_position_size →
      determine_size cfg equity e st sh = some n → 1 ≤ n) := by
  refine ⟨?_, ?_, ?_⟩
  · intro cfg equity e st sh n h
    simp only [determine_size, calculate_size] at h
    split_ifs at h
    all_goals
      first
        | exact Option.noConfusion h
        | (obtain rfl := Option.some.inj h
           first
             | exact le_trans zero_le_one (one_le_imax_one _)
             | exact le_refl (0 : ℤ)
             | exact zero_le_imax_zero _)
  · intro cfg equity e st sh hfix hdist
    simp only [determine_size, calculate_size]
    rw [if_neg (not_lt.mpr hfix),
      if_pos (show rabs (e - st) ≤ 0 by rw [rabs_eq]; exact hdist)]
  · intro cfg equity e st sh n hfix h
    simp only [determine_size] at h
    rw [if_pos hfix] at h
    split_ifs at h
    all_goals
      first
        | exact Option.noConfusion h
        | (obtain rfl := Option.some.inj h
           exact one_le_imax_one _)

/-- C6 witness: the amended theorem applied at concrete inputs — risk-based
config, entry = stop = 500 gives size 0, and that size is non-negative. -/
theorem C6_amended_witness :
    determine_size cfg0risk 100000 500 500 false = some 0 ∧ (0 : ℤ) ≤ 0 := by
  have h0 : determine_size cfg0risk 100000 500 500 false = some 0 :=
    C6_amended.2.1 cfg0risk 100000 500 500 false (by norm_num [cfg0risk, cfg0])
      (by norm_num)
  exact ⟨h0, C6_amended.1 cfg0risk 100000 500 500 false 0 h0⟩

/-- C10: if `_update_position_management` is invoked while any of
`entry_price`, `stop_price`, `entry_risk` is `None`, it returns immediately:
the state is unchanged and no order intent is emitted. -/
theorem C10_none_guard :
    ∀ cfg s pos close high low kijun_v,
      (s.entry_price = none ∨ s.stop_price = none ∨ s.entry_risk = none) →
      update_position_management cfg s pos close high low kijun_v = (s, []) := by
  intro cfg s pos close high low kijun_v h
  cases hep : s.entry_price <;> cases hsp : s.stop_price <;>
    cases her : s.entry_risk <;> simp_all [update_position_management]

/-- C10 witness: the freshly initialised state (all position fields `None`)
is returned unchanged by management, with no intents. -/
theorem C10_none_guard_witness :
    update_position_management cfg0 (initState []) 1 0 0 0 0 = (initState [], []) :=
  C10_none_guard cfg0 (initState []) 1 0 0 0 0 (Or.inl rfl)

/-- A pending agent trade used in concrete runs: a long at price 100 with an
explicit size of 5 contracts. -/
def extT : ExternalTrade :=
  { entry := "long@100", price := 100, direction := "long", size := some 5 }

/-- C8 failing input: a bar past warm-up whose ADX (10) is at or below the
threshold (19), while `extT` is pending and within half an ATR of the close. -/
def c8bar : Bar :=
  { date := 1, barsSoFar := 200, close := 100, prev_close := 100, high := 101,
    low := 99, gauss := 1, gauss_prev := 1, kijun := 50, kijun_prev := 50,
    vapi := 1, vapi_prev := 1, adx := some 10, smma := 1, atr := 2,
    swing_low := 95, swing_high := 200, pos := 0, equity := 100000 }

/-- Initial state holding the pending external trade `extT`. -/
def c8s : StratState := initState [extT]

/-- C8 (code bug): on a bar whose ADX is at or below the threshold, `next`
returns at the ADX guard before reaching the external-trades override block,
so the pending, matching external trade is NOT applied: no entry intent is
emitted and the trade stays unexecuted — even though the override block's own
comment says it exists "e.g., for low ADX scenarios" and the claim says the
forced entry is applied regardless of the trend-strength filter. -/
theorem C8_low_adx_override_skipped :
    (extT.entry ≠ "" ∧ extT.entry ∉ c8s.executed_external ∧
      rabs (c8bar.close - extT.price) < c8bar.atr * (1 / 2) ∧
      extT.direction = "long" ∧ c8s.external_trades = [extT]) ∧
    c8bar.adx = some 10 ∧ (10 : ℚ) ≤ cfg0.adx_threshold ∧
    next cfg0 c8s c8bar = some (dayRoll c8s c8bar.date, []) := by
  refine ⟨⟨?_, ?_, ?_, ?_, ?_⟩, ?_, ?_, ?_⟩
  · simp [extT]
  · simp [extT, c8s, initState]
  · norm_num [extT, c8bar, rabs]
  · rfl
  · rfl
  · rfl
  · norm_num [cfg0]
  · norm_num [next, c8bar, cfg0]

@[simp] theorem dayRoll_entry_price (s : StratState) (d : ℕ) :
    (dayRoll s d).entry_price = s.entry_price := by
  rw [dayRoll]; split_ifs <;> rfl

@[simp] theorem dayRoll_stop_price (s : StratState) (d : ℕ) :
    (dayRoll s d).stop_price = s.stop_price := by
  rw [dayRoll]; split_ifs <;> rfl

@[simp] theorem dayRoll_initial_atr (s : StratState) (d : ℕ) :
    (dayRoll s d).initial_atr = s.initial_atr := by
  rw [dayRoll]; split_ifs <;> rfl

@[simp] theorem dayRoll_entry_risk (s : StratState) (d : ℕ) :
    (dayRoll s d).entry_risk = s.entry_risk := by
  rw [dayRoll]; split_ifs <;> rfl

@[simp] theorem dayRoll_tp_price (s : StratState) (d : ℕ) :
    (dayRoll s d).tp_price = s.tp_price := by
  rw [dayRoll]; split_ifs <;> rfl

@[simp] theorem dayRoll_breakeven_active (s : StratState) (d : ℕ) :
    (dayRoll s d).breakeven_active = s.breakeven_active := by
  rw [dayRoll]; split_ifs <;> rfl

@[simp] theorem dayRoll_highest_since_entry (s : StratState) (d : ℕ) :
    (dayRoll s d).highest_since_entry = s.highest_since_entry := by
  rw [dayRoll]; split_ifs <;> rfl

@[simp] theorem dayRoll_lowest_since_entry (s : StratState) (d : ℕ) :
    (dayRoll s d).lowest_since_entry = s.lowest_since_entry := by
  rw [dayRoll]; split_ifs <;> rfl

@[simp] theorem dayRoll_close_reason (s : StratState) (d : ℕ) :
    (dayRoll s d).close_reason = s.close_reason := by
  rw [dayRoll]; split_ifs <;> rfl

@[simp] theorem dayRoll_entry_order (s : StratState) (d : ℕ) :
    (dayRoll s d).entry_order = s.entry_order := by
  rw [dayRoll]; split_ifs <;> rfl

@[simp] theorem dayRoll_exit_order (s : StratState) (d : ℕ) :
    (dayRoll s d).exit_order = s.exit_order := by
  rw [dayRoll]; split_ifs <;> rfl

@[simp] theorem dayRoll_external_trades (s : StratState) (d : ℕ) :
    (dayRoll s d).external_trades = s.external_trades := by
  rw [dayRoll]; split_ifs <;> rfl

@[simp] theorem dayRoll_executed_external (s : StratState) (d : ℕ) :
    (dayRoll s d).executed_external = s.executed_external := by
  rw [dayRoll]; split_ifs <;> rfl

/-- C5 (amended): the management/exit steps run only on bars that pass the
entry-guard chain at the top of `next`.  (i) On any bar whose ADX is NaN or at
or below `adx_threshold`, `next` returns right after the day-rollover
bookkeeping: no management, no exits, no intents.  (ii) Likewise on any bar
where the daily trade cap is already reached.  (iii) When the warm-up, ADX and
cap guards all pass, no external override fires and a position is open,
`next` does run the management and trend-break steps (`openStep`). -/
theorem C5_amended :
    (∀ cfg s b, (b.adx = none ∨ ∃ av, b.adx = some av ∧ av ≤ cfg.adx_threshold) →
      next cfg s b = some (dayRoll s b.date, [])) ∧
    (∀ cfg s b, cfg.max_trades_per_day ≤ (dayRoll s b.date).trades_today →
      next cfg s b = some (dayRoll s b.date, [])) ∧
    (∀ cfg s b, s.external_trades = [] → b.pos ≠ 0 →
      cfg.min_bars ≤ b.barsSoFar →
      (∃ av, b.adx = some av ∧ cfg.adx_threshold < av) →
      (dayRoll s b.date).trades_today < cfg.max_trades_per_day →
      next cfg s b = some (openStep cfg (dayRoll s b.date) b)) := by
  refine ⟨?_, ?_, ?_⟩
  · intro cfg s b h
    by_cases hw : b.barsSoFar < cfg.min_bars
    · simp [next, hw]
    · rcases h with h | ⟨av, hav, hle⟩
      · simp [next, hw, h]
      · simp [next, hw, hav, hle]
  · intro cfg s b h
    by_cases hw : b.barsSoFar < cfg.min_bars
    · simp [next, hw]
    · cases hadx : b.adx with
      | none => simp [next, hw, hadx]
      | some av =>
        by_cases hle : av ≤ cfg.adx_threshold
        · simp [next, hw, hadx, hle]
        · simp [next, hw, hadx, hle, h]
  · intro cfg s b hext hpos hmin ⟨av, hav, hgt⟩ hcap
    have hw : ¬ b.barsSoFar < cfg.min_bars := not_lt.mpr hmin
    have hle : ¬ av ≤ cfg.adx_threshold := not_le.mpr hgt
    have hcap' : ¬ cfg.max_trades_per_day ≤ (dayRoll s b.date).trades_today :=
      not_le.mpr hcap
    simp [next, hw, hav, hle, hcap', hext, hpos, scanExternal]

/-- A state with an open long position (entry 100, stop 98, risk 2, entry ATR
1, TP 104 far above), no pending external trades, one trade taken today. -/
def c5s : StratState :=
  { today := some 1
    trades_today := 1
    entry_price := some 100
    stop_price := some 98
    initial_atr := some 1
    entry_risk := some 2
    tp_price := some 104
    breakeven_active := false
    highest_since_entry := some 100
    lowest_since_entry := none
    close_reason := ""
    entry_order := true
    exit_order := false
    external_trades := []
    executed_external := [] }

/-- C5 failing bar: the long position is open (pos = 5) and the close (90) is
through the stop (98), but ADX is 10 ≤ 19. -/
def c5bar : Bar :=
  { date := 1, barsSoFar := 300, close := 90, prev_close := 99, high := 99,
    low := 89, gauss := 1, gauss_prev := 1, kijun := 50, kijun_prev := 50,
    vapi := 1, vapi_prev := 1, adx := some 10, smma := 1, atr := 1,
    swing_low := 80, swing_high := 200, pos := 5, equity := 100000 }

/-- C5 counterexample: with an open long position whose stop-loss condition
holds on this bar (close 90 ≤ stop 98), but ADX (10) at or below the
threshold (19), `next` skips management entirely: the state is returned
unchanged (stop not updated, close_reason still empty) and no order intent —
in particular no stop-loss close — is emitted, refuting "those filters gate
only new entries, not management of an existing position". -/
theorem C5_counterexample :
    c5bar.pos = 5 ∧ c5s.stop_price = some 98 ∧ c5bar.close ≤ 98 ∧
    c5s.close_reason = "" ∧
    c5bar.adx = some 10 ∧ (10 : ℚ) ≤ cfg0.adx_threshold ∧
    next cfg0 c5s c5bar = some (c5s, []) := by
  refine ⟨rfl, rfl, by norm_num [c5bar], rfl, rfl, by norm_num [cfg0], ?_⟩
  have hroll : dayRoll c5s c5bar.date = c5s := by
    simp [dayRoll, c5s, c5bar]
  have := C5_amended.1 cfg0 c5s c5bar
    (Or.inr ⟨10, rfl, by norm_num [cfg0]⟩)
  rw [hroll] at this
  exact this

/-- A guards-passing bar (ADX 25 > 19) with the same open long position. -/
def c5wbar : Bar :=
  { date := 1, barsSoFar := 300, close := 99, prev_close := 99, high := 100,
    low := 98, gauss := 1, gauss_prev := 1, kijun := 50, kijun_prev := 50,
    vapi := 1, vapi_prev := 1, adx := some 25, smma := 1, atr := 1,
    swing_low := 80, swing_high := 200, pos := 5, equity := 100000 }

/-- C5 witness: the amended theorem applied at concrete inputs — on the
low-ADX bar management is skipped, and on the guards-passing bar `next` runs
the management/trend-break step. -/
theorem C5_amended_witness :
    next cfg0 c5s c5bar = some (dayRoll c5s c5bar.date, []) ∧
    next cfg0 c5s c5wbar = some (openStep cfg0 (dayRoll c5s c5wbar.date) c5wbar) :=
  ⟨C5_amended.1 cfg0 c5s c5bar (Or.inr ⟨10, rfl, by norm_num [cfg0]⟩),
   C5_amended.2.2 cfg0 c5s c5wbar rfl (by norm_num [c5wbar])
     (by norm_num [c5wbar, cfg0]) ⟨25, rfl, by norm_num [cfg0]⟩
     (by simp [dayRoll, c5s, c5wbar, cfg0])⟩

theorem mgmtLong_today (cfg : TradingConfig) (s : StratState) (pos : ℤ)
    (e st r c h : ℚ) : (mgmtLong cfg s pos e st r c h).1.today = s.today := rfl

theorem mgmtLong_trades (cfg : TradingConfig) (s : StratState) (pos : ℤ)
    (e st r c h : ℚ) :
    (mgmtLong cfg s pos e st r c h).1.trades_today = s.trades_today := rfl

theorem mgmtLong_entry_price (cfg : TradingConfig) (s : StratState) (pos : ℤ)
    (e st r c h : ℚ) :
    (mgmtLong cfg s pos e st r c h).1.entry_price = s.entry_price := rfl

theorem mgmtLong_entry_risk (cfg : TradingConfig) (s : StratState) (pos : ℤ)
    (e st r c h : ℚ) :
    (mgmtLong cfg s pos e st r c h).1.entry_risk = s.entry_risk := rfl

theorem mgmtLong_initial_atr (cfg : TradingConfig) (s : StratState) (pos : ℤ)
    (e st r c h : ℚ) :
    (mgmtLong cfg s pos e st r c h).1.initial_atr = s.initial_atr := rfl

theorem mgmtLong_tp_price (cfg : TradingConfig) (s : StratState) (pos : ℤ)
    (e st r c h : ℚ) :
    (mgmtLong cfg s pos e st r c h).1.tp_price = s.tp_price := rfl

theorem mgmtLong_external (cfg : TradingConfig) (s : StratState) (pos : ℤ)
    (e st r c h : ℚ) :
    (mgmtLong cfg s pos e st r c h).1.external_trades = s.external_trades := rfl

theorem mgmtLong_executed (cfg : TradingConfig) (s : StratState) (pos : ℤ)
    (e st r c h : ℚ) :
    (mgmtLong cfg s pos e st r c h).1.executed_external = s.executed_external := rfl

theorem mgmtShort_today (cfg : TradingConfig) (s : StratState) (pos : ℤ)
    (e st r c l : ℚ) : (mgmtShort cfg s pos e st r c l).1.today = s.today := rfl

theorem mgmtShort_trades (cfg : TradingConfig) (s : StratState) (pos : ℤ)
    (e st r c l : ℚ) :
    (mgmtShort cfg s pos e st r c l).1.trades_today = s.trades_today := rfl

theorem mgmtShort_entry_price (cfg : TradingConfig) (s : StratState) (pos : ℤ)
    (e st r c l : ℚ) :
    (mgmtShort cfg s pos e st r c l).1.entry_price = s.entry_price := rfl

theorem mgmtShort_entry_risk (cfg : TradingConfig) (s : StratState) (pos : ℤ)
    (e st r c l : ℚ) :
    (mgmtShort cfg s pos e st r c l).1.entry_risk = s.entry_risk := rfl

theorem mgmtShort_initial_atr (cfg : TradingConfig) (s : StratState) (pos : ℤ)
    (e st r c l : ℚ) :
    (mgmtShort cfg s pos e st r c l).1.initial_atr = s.initial_atr := rfl

theorem mgmtShort_tp_price (cfg : TradingConfig) (s : StratState) (pos : ℤ)
    (e st r c l : ℚ) :
    (mgmtShort cfg s pos e st r c l).1.tp_price = s.tp_price := rfl

theorem mgmtShort_external (cfg : TradingConfig) (s : StratState) (pos : ℤ)
    (e st r c l : ℚ) :
    (mgmtShort cfg s pos e st r c l).1.external_trades = s.external_trades := rfl

theorem mgmtShort_executed (cfg : TradingConfig) (s : StratState) (pos : ℤ)
    (e st r c l : ℚ) :
    (mgmtShort cfg s pos e st r c l).1.executed_external = s.executed_external := rfl

theorem mgmtLong_no_enter (cfg : TradingConfig) (s : StratState) (pos : ℤ)
    (e st r c h : ℚ) :
    countEnter (mgmtLong cfg s pos e st r c h).2 = 0 := by
  simp only [mgmtLong, countEnter]
  rcases htp : s.tp_price with _ | tp <;>
    simp only [htp] <;> split_ifs <;>
    simp [Intent.isEnter]

theorem mgmtShort_no_enter (cfg : TradingConfig) (s : StratState) (pos : ℤ)
    (e st r c l : ℚ) :
    countEnter (mgmtShort cfg s pos e st r c l).2 = 0 := by
  simp only [mgmtShort, countEnter]
  rcases htp : s.tp_price with _ | tp <;>
    simp only [htp] <;> split_ifs <;>
    simp [Intent.isEnter]

theorem mgmtLong_tp1_bound (cfg : TradingConfig) (s : StratState) (pos : ℤ)
    (e st r c h : ℚ) :
    countTP1 (mgmtLong cfg s pos e st r c h).2 ≤ (if s.exit_order then 0 else 1) := by
  simp only [mgmtLong, countTP1]
  rcases htp : s.tp_price with _ | tp <;> simp only [htp] <;> split_ifs <;>
    simp_all [Intent.isTP1, Intent.isClose]

theorem mgmtShort_tp1_bound (cfg : TradingConfig) (s : StratState) (pos : ℤ)
    (e st r c l : ℚ) :
    countTP1 (mgmtShort cfg s pos e st r c l).2 ≤ (if s.exit_order then 0 else 1) := by
  simp only [mgmtShort, countTP1]
  rcases htp : s.tp_price with _ | tp <;> simp only [htp] <;> split_ifs <;>
    simp_all [Intent.isTP1, Intent.isClose]

theorem mgmtLong_exit_false (cfg : TradingConfig) (s : StratState) (pos : ℤ)
    (e st r c h : ℚ) :
    (mgmtLong cfg s pos e st r c h).1.exit_order = false →
    s.exit_order = false ∧ countTP1 (mgmtLong cfg s pos e st r c h).2 = 0 := by
  simp only [mgmtLong, countTP1]
  rcases htp : s.tp_price with _ | tp <;> simp only [htp] <;> split_ifs <;>
    intro hfalse <;> simp_all [Intent.isTP1]

theorem mgmtShort_exit_false (cfg : TradingConfig) (s : StratState) (pos : ℤ)
    (e st r c l : ℚ) :
    (mgmtShort cfg s pos e st r c l).1.exit_order = false →
    s.exit_order = false ∧ countTP1 (mgmtShort cfg s pos e st r c l).2 = 0 := by
  simp only [mgmtShort, countTP1]
  rcases htp : s.tp_price with _ | tp <;> simp only [htp] <;> split_ifs <;>
    intro hfalse <;> simp_all [Intent.isTP1]

theorem mgmtLong_close_bound (cfg : TradingConfig) (s : StratState) (pos : ℤ)
    (e st r c h : ℚ) :
    countClose (mgmtLong cfg s pos e st r c h).2 ≤ 1 := by
  simp only [mgmtLong, countClose]
  rcases htp : s.tp_price with _ | tp <;> simp only [htp] <;> split_ifs <;>
    simp [Intent.isClose, Intent.isTP1]

theorem mgmtShort_close_bound (cfg : TradingConfig) (s : StratState) (pos : ℤ)
    (e st r c l : ℚ) :
    countClose (mgmtShort cfg s pos e st r c l).2 ≤ 1 := by
  simp only [mgmtShort, countClose]
  rcases htp : s.tp_price with _ | tp <;> simp only [htp] <;> split_ifs <;>
    simp [Intent.isClose, Intent.isTP1]

theorem mgmtLong_reason_empty (cfg : TradingConfig) (s : StratState) (pos : ℤ)
    (e st r c h : ℚ) :
    (mgmtLong cfg s pos e st r c h).1.close_reason = "" →
    countClose (mgmtLong cfg s pos e st r c h).2 = 0 := by
  simp only [mgmtLong, countClose]
  rcases htp : s.tp_price with _ | tp <;> simp only [htp] <;> split_ifs <;>
    intro hre <;>
    first
      | (simp [Intent.isClose, Intent.isTP1]; done)
      | exact absurd hre (by decide)

theorem mgmtShort_reason_empty (cfg : TradingConfig) (s : StratState) (pos : ℤ)
    (e st r c l : ℚ) :
    (mgmtShort cfg s pos e st r c l).1.close_reason = "" →
    countClose (mgmtShort cfg s pos e st r c l).2 = 0 := by
  simp only [mgmtShort, countClose]
  rcases htp : s.tp_price with _ | tp <;> simp only [htp] <;> split_ifs <;>
    intro hre <;>
    first
      | (simp [Intent.isClose, Intent.isTP1]; done)
      | exact absurd hre (by decide)

theorem mgmtLong_stop_fire (cfg : TradingConfig) (s : StratState) (pos : ℤ)
    (e st r c h : ℚ) (hre : s.close_reason = "")
    (hc : c ≤ (mgmtLong cfg s pos e st r c h).1.stop_price.getD 0) :
    (mgmtLong cfg s pos e st r c h).1.close_reason = "Stop loss LONG" ∧
    countClose (mgmtLong cfg s pos e st r c h).2 = 1 := by
  simp only [mgmtLong, Option.getD_some] at hc
  simp only [mgmtLong, countClose]
  rw [if_pos (⟨hc, hre⟩ : _ ∧ _)]
  rcases htp : s.tp_price with _ | tp <;> simp only [htp] <;> (try split_ifs) <;>
    simp [Intent.isClose, Intent.isTP1]

theorem mgmtShort_stop_fire (cfg : TradingConfig) (s : StratState) (pos : ℤ)
    (e st r c l : ℚ) (hre : s.close_reason = "")
    (hc : (mgmtShort cfg s pos e st r c l).1.stop_price.getD 0 ≤ c) :
    (mgmtShort cfg s pos e st r c l).1.close_reason = "Stop loss SHORT" ∧
    countClose (mgmtShort cfg s pos e st r c l).2 = 1 := by
  simp only [mgmtShort, Option.getD_some] at hc
  simp only [mgmtShort, countClose]
  rw [if_pos (⟨hc, hre⟩ : _ ∧ _)]
  rcases htp : s.tp_price with _ | tp <;> simp only [htp] <;> (try split_ifs) <;>
    simp [Intent.isClose, Intent.isTP1]

theorem UPM_facts (cfg : TradingConfig) (s : StratState) (pos : ℤ)
    (c h l k : ℚ) :
    (update_position_management cfg s pos c h l k).1.trades_today = s.trades_today ∧
    (update_position_management cfg s pos c h l k).1.today = s.today ∧
    (update_position_management cfg s pos c h l k).1.external_trades = s.external_trades ∧
    (update_position_management cfg s pos c h l k).1.executed_external = s.executed_external ∧
    countEnter (update_position_management cfg s pos c h l k).2 = 0 ∧
    countClose (update_position_management cfg s pos c h l k).2 ≤ 1 ∧
    countTP1 (update_position_management cfg s pos c h l k).2 ≤
      (if s.exit_order then 0 else 1) ∧
    ((update_position_management cfg s pos c h l k).1.exit_order = false →
      s.exit_order = false ∧
      countTP1 (update_position_management cfg s pos c h l k).2 = 0) ∧
    ((update_position_management cfg s pos c h l k).1.close_reason = "" →
      countClose (update_position_management cfg s pos c h l k).2 = 0) := by
  rw [update_position_management]
  rcases hep : s.entry_price with _ | e <;> rcases hsp : s.stop_price with _ | st <;>
    rcases her : s.entry_risk with _ | r
  case some.some.some =>
    dsimp only
    by_cases hpos : 0 < pos
    · rw [if_pos hpos]
      exact ⟨mgmtLong_trades cfg s pos e st r c h,
        mgmtLong_today cfg s pos e st r c h,
        mgmtLong_external cfg s pos e st r c h,
        mgmtLong_executed cfg s pos e st r c h,
        mgmtLong_no_enter cfg s pos e st r c h,
        mgmtLong_close_bound cfg s pos e st r c h,
        mgmtLong_tp1_bound cfg s pos e st r c h,
        mgmtLong_exit_false cfg s pos e st r c h,
        mgmtLong_reason_empty cfg s pos e st r c h⟩
    · rw [if_neg hpos]
      exact ⟨mgmtShort_trades cfg s pos e st r c l,
        mgmtShort_today cfg s pos e st r c l,
        mgmtShort_external cfg s pos e st r c l,
        mgmtShort_executed cfg s pos e st r c l,
        mgmtShort_no_enter cfg s pos e st r c l,
        mgmtShort_close_bound cfg s pos e st r c l,
        mgmtShort_tp1_bound cfg s pos e st r c l,
        mgmtShort_exit_false cfg s pos e st r c l,
        mgmtShort_reason_empty cfg s pos e st r c l⟩
  all_goals
    exact ⟨rfl, rfl, rfl, rfl, rfl, by simp [countClose],
      by cases s.exit_order <;> simp [countTP1],
      fun hh => ⟨hh, rfl⟩, fun _ => rfl⟩

theorem countEnter_append (a b : List Intent) :
    countEnter (a ++ b) = countEnter a + countEnter b := List.countP_append _ _ _

theorem countTP1_append (a b : List Intent) :
    countTP1 (a ++ b) = countTP1 a + countTP1 b := List.countP_append _ _ _

theorem countClose_append (a b : List Intent) :
    countClose (a ++ b) = countClose a + countClose b := List.countP_append _ _ _

theorem next_elim (cfg : TradingConfig) (s : StratState) (b : Bar)
    (p : StratState × List Intent) (h : next cfg s b = some p) :
    p = (dayRoll s b.date, []) ∨
    (∃ t size,
      scanExternal cfg b.equity (dayRoll s b.date).executed_external b.close b.atr
          (dayRoll s b.date).external_trades = some (some (t, size)) ∧
      (p = enter_long cfg { dayRoll s b.date with
          executed_external := t.entry :: (dayRoll s b.date).executed_external }
          b.close size b.swing_low b.atr ∨
       p = enter_short cfg { dayRoll s b.date with
          executed_external := t.entry :: (dayRoll s b.date).executed_external }
          b.close size b.swing_high b.atr)) ∨
    (b.pos = 0 ∧ flatStep cfg (dayRoll s b.date) b = some p) ∨
    (b.pos ≠ 0 ∧ p = openStep cfg (dayRoll s b.date) b) := by
  simp only [next] at h
  split at h
  · exact Or.inl (Option.some.inj h).symm
  · split at h
    · exact Or.inl (Option.some.inj h).symm
    · split at h
      · exact Or.inl (Option.some.inj h).symm
      · split at h
        · exact Or.inl (Option.some.inj h).symm
        · split at h
          · exact Option.noConfusion h
          · rename_i t size hscan
            split at h
            · exact Or.inr (Or.inl ⟨t, size, hscan, Or.inl (Option.some.inj h).symm⟩)
            · exact Or.inr (Or.inl ⟨t, size, hscan, Or.inr (Option.some.inj h).symm⟩)
          · rename_i hscan
            split at h
            · rename_i hpos
              exact Or.inr (Or.inr (Or.inl ⟨hpos, h⟩))
            · rename_i hpos
              exact Or.inr (Or.inr (Or.inr ⟨hpos, (Option.some.inj h).symm⟩))

theorem openStep_facts (cfg : TradingConfig) (s : StratState) (b : Bar) :
    (openStep cfg s b).1.trades_today = s.trades_today ∧
    (openStep cfg s b).1.external_trades = s.external_trades ∧
    countEnter (openStep cfg s b).2 = 0 ∧
    countClose (openStep cfg s b).2 ≤ 1 ∧
    countTP1 (openStep cfg s b).2 ≤ (if s.exit_order then 0 else 1) ∧
    ((openStep cfg s b).1.exit_order = false →
      s.exit_order = false ∧ countTP1 (openStep cfg s b).2 = 0) := by
  obtain ⟨h1, h2, h3, h4, h5, h6, h7, h8, h9⟩ :=
    UPM_facts cfg s b.pos b.close b.high b.low b.kijun
  have hc1 : countTP1 [Intent.closeAll] = 0 := rfl
  simp only [openStep]
  by_cases htb1 : 0 < b.pos ∧ b.close < b.kijun ∧ b.prev_close < b.kijun_prev ∧
      (update_position_management cfg s b.pos b.close b.high b.low b.kijun).1.close_reason = ""
  · rw [if_pos htb1]
    refine ⟨h1, h3, ?_, ?_, ?_, ?_⟩
    · rw [countEnter_append, h5]
      decide
    · rw [countClose_append, h9 htb1.2.2.2]
      decide
    · rw [countTP1_append, hc1, Nat.add_zero]
      exact h7
    · intro hfalse
      obtain ⟨hs, hcnt⟩ := h8 hfalse
      rw [countTP1_append, hcnt, hc1]
      exact ⟨hs, rfl⟩
  · rw [if_neg htb1]
    by_cases htb2 : b.pos < 0 ∧ b.kijun < b.close ∧ b.kijun_prev < b.prev_close ∧
        (update_position_management cfg s b.pos b.close b.high b.low b.kijun).1.close_reason = ""
    · rw [if_pos htb2]
      refine ⟨h1, h3, ?_, ?_, ?_, ?_⟩
      · rw [countEnter_append, h5]
        decide
      · rw [countClose_append, h9 htb2.2.2.2]
        decide
      · rw [countTP1_append, hc1, Nat.add_zero]
        exact h7
      · intro hfalse
        obtain ⟨hs, hcnt⟩ := h8 hfalse
        rw [countTP1_append, hcnt, hc1]
        exact ⟨hs, rfl⟩
    · rw [if_neg htb2]
      exact ⟨h1, h3, h5, h6, h7, h8⟩

theorem enter_long_facts (cfg : TradingConfig) (s : StratState) (c : ℚ) (sz : ℤ)
    (stp atr : ℚ) :
    (enter_long cfg s c sz stp atr).1.trades_today = s.trades_today + 1 ∧
    (enter_long cfg s c sz stp atr).1.external_trades = s.external_trades ∧
    countEnter (enter_long cfg s c sz stp atr).2 = 1 ∧
    countClose (enter_long cfg s c sz stp atr).2 = 0 ∧
    countTP1 (enter_long cfg s c sz stp atr).2 = 0 := by
  refine ⟨rfl, rfl, ?_, ?_, ?_⟩ <;>
    simp [enter_long, countEnter, countClose, countTP1,
      Intent.isEnter, Intent.isClose, Intent.isTP1]

theorem enter_short_facts (cfg : TradingConfig) (s : StratState) (c : ℚ) (sz : ℤ)
    (stp atr : ℚ) :
    (enter_short cfg s c sz stp atr).1.trades_today = s.trades_today + 1 ∧
    (enter_short cfg s c sz stp atr).1.external_trades = s.external_trades ∧
    countEnter (enter_short cfg s c sz stp atr).2 = 1 ∧
    countClose (enter_short cfg s c sz stp atr).2 = 0 ∧
    countTP1 (enter_short cfg s c sz stp atr).2 = 0 := by
  refine ⟨rfl, rfl, ?_, ?_, ?_⟩ <;>
    simp [enter_short, countEnter, countClose, countTP1,
      Intent.isEnter, Intent.isClose, Intent.isTP1]

theorem shortEntryStep_facts (cfg : TradingConfig) (s : StratState) (b : Bar)
    (p : StratState × List Intent) (h : shortEntryStep cfg s b = some p) :
    p.1.trades_today = s.trades_today + countEnter p.2 ∧
    p.1.external_trades = s.external_trades ∧
    countEnter p.2 ≤ 1 ∧ countClose p.2 = 0 ∧ countTP1 p.2 = 0 := by
  simp only [shortEntryStep] at h
  split at h
  · split at h
    · exact Option.noConfusion h
    · split at h
      · obtain rfl := (Option.some.inj h).symm
        obtain ⟨e1, e2, e3, e4, e5⟩ := enter_short_facts cfg s b.close _ b.swing_high b.atr
        exact ⟨by rw [e3]; exact e1, e2, by rw [e3], e4, e5⟩
      · obtain rfl := (Option.some.inj h).symm
        simp [countEnter, countClose, countTP1]
  · obtain rfl := (Option.some.inj h).symm
    simp [countEnter, countClose, countTP1]

theorem flatStep_facts (cfg : TradingConfig) (s : StratState) (b : Bar)
    (p : StratState × List Intent) (h : flatStep cfg s b = some p) :
    p.1.trades_today = s.trades_today + countEnter p.2 ∧
    p.1.external_trades = s.external_trades ∧
    countEnter p.2 ≤ 1 ∧ countClose p.2 = 0 ∧ countTP1 p.2 = 0 := by
  simp only [flatStep] at h
  split at h
  · split at h
    · exact Option.noConfusion h
    · split at h
      · obtain rfl := (Option.some.inj h).symm
        obtain ⟨e1, e2, e3, e4, e5⟩ := enter_long_facts cfg _ b.close _ b.swing_low b.atr
        exact ⟨by rw [e3]; exact e1, e2, by rw [e3], e4, e5⟩
      · exact shortEntryStep_facts cfg
          { s with exit_order := false, close_reason := "" } b p h
  · exact shortEntryStep_facts cfg
      { s with exit_order := false, close_reason := "" } b p h

theorem next_guards_pass (cfg : TradingConfig) (s : StratState) (b : Bar)
    (av : ℚ) (hext : s.external_trades = [])
    (hw : cfg.min_bars ≤ b.barsSoFar) (hav : b.adx = some av)
    (hgt : cfg.adx_threshold < av)
    (hcap : (dayRoll s b.date).trades_today < cfg.max_trades_per_day) :
    next cfg s b = if b.pos = 0 then flatStep cfg (dayRoll s b.date) b
      else some (openStep cfg (dayRoll s b.date) b) := by
  simp only [next, hav, not_lt.mpr hw, not_le.mpr hgt, not_le.mpr hcap, hext,
    dayRoll_external_trades, scanExternal, if_false]

theorem next_trades_acct (cfg : TradingConfig) (s : StratState) (b : Bar)
    (p : StratState × List Intent) (h : next cfg s b = some p) :
    p.1.trades_today = (dayRoll s b.date).trades_today + countEnter p.2 := by
  rcases next_elim cfg s b p h with hcase | ⟨t, size, hscan, hcase | hcase⟩ |
    ⟨hpos, hflat⟩ | ⟨hpos, hcase⟩
  · rw [hcase]
    rfl
  · obtain ⟨e1, _, e3, _, _⟩ := enter_long_facts cfg
      { dayRoll s b.date with
        executed_external := t.entry :: (dayRoll s b.date).executed_external }
      b.close size b.swing_low b.atr
    rw [hcase, e3]
    exact e1
  · obtain ⟨e1, _, e3, _, _⟩ := enter_short_facts cfg
      { dayRoll s b.date with
        executed_external := t.entry :: (dayRoll s b.date).executed_external }
      b.close size b.swing_high b.atr
    rw [hcase, e3]
    exact e1
  · exact (flatStep_facts cfg (dayRoll s b.date) b p hflat).1
  · obtain ⟨o1, _, o3, _⟩ := openStep_facts cfg (dayRoll s b.date) b
    rw [hcase, o3, Nat.add_zero]
    exact o1

/-- C3 (amended): when no external-override trade fires (here: the
`external_trades` parameter is empty), an entry order intent is emitted only
when no position is open — on any bar with an open position, `next` emits no
entry intent. The external-override path, by contrast, is not guarded by the
position check (see the counterexample). -/
theorem C3_amended :
    ∀ cfg s b p, s.external_trades = [] → b.pos ≠ 0 →
      next cfg s b = some p → countEnter p.2 = 0 := by
  intro cfg s b p hext hpos h
  rcases next_elim cfg s b p h with hcase | ⟨t, size, hscan, _⟩ |
    ⟨hp0, _⟩ | ⟨_, hcase⟩
  · rw [hcase]
    rfl
  · rw [dayRoll_external_trades, hext] at hscan
    exact absurd hscan (by simp [scanExternal])
  · exact absurd hp0 hpos
  · rw [hcase]
    exact (openStep_facts cfg (dayRoll s b.date) b).2.2.1

/-- The open-position state `c5s` together with a pending matching external
trade — used to show the override path ignores the position check. -/
def c3s : StratState := { c5s with external_trades := [extT] }

/-- A guards-passing bar at the external trade's price while a long position
of 5 contracts is open. -/
def c3bar : Bar :=
  { date := 1, barsSoFar := 300, close := 100, prev_close := 100, high := 101,
    low := 99, gauss := 1, gauss_prev := 1, kijun := 50, kijun_prev := 50,
    vapi := 1, vapi_prev := 1, adx := some 25, smma := 1, atr := 2,
    swing_low := 95, swing_high := 200, pos := 5, equity := 100000 }

/-- C3 counterexample: with a position already open (pos = 5), the
external-override path still emits a market-entry order intent, refuting "an
entry order intent (including one triggered by the external-trades override
path) is emitted only when no position is currently open". -/
theorem C3_counterexample :
    c3bar.pos ≠ 0 ∧
    Option.map (fun p => countEnter p.2) (next cfg0 c3s c3bar) = some 1 := by
  refine ⟨by decide, ?_⟩
  have hstr : ¬ ("long@100" : String) = "" := by decide
  norm_num [next, dayRoll, c3s, c3bar, extT, cfg0, c5s, scanExternal,
    determine_size, pytrunc, rfloor_eq, rabs_eq, imax_eq, enter_long,
    countEnter, Intent.isEnter, hstr]

/-- C3 witness: the amended theorem applied to the open-position state with no
pending external trades: the bar emits no entry intent. -/
theorem C3_amended_witness :
    ∃ p, next cfg0 c5s c5wbar = some p ∧ countEnter p.2 = 0 := by
  have h : next cfg0 c5s c5wbar = some (openStep cfg0 (dayRoll c5s c5wbar.date) c5wbar) := by
    rw [next_guards_pass cfg0 c5s c5wbar 25 rfl (by norm_num [c5wbar, cfg0]) rfl
      (by norm_num [cfg0]) (by simp [dayRoll, c5s, c5wbar, cfg0]),
      if_neg (by decide : ¬ c5wbar.pos = 0)]
  exact ⟨_, h, C3_amended cfg0 c5s c5wbar _ rfl (by decide) h⟩

/-- C9: (i) on every bar, the daily trade counter after `next` equals its
post-rollover value plus the number of entry intents emitted on that bar —
the counter is incremented exactly when an entry intent is emitted; (ii) when
a LONG entry signal fires but the sizer returns 0 (and no external trade is
pending), `next` emits no intent at all and leaves the counter unchanged;
(iii) the same for a SHORT entry signal whose sizer returns 0. -/
theorem C9_size_zero_entry :
    (∀ cfg s b p, next cfg s b = some p →
      p.1.trades_today = (dayRoll s b.date).trades_today + countEnter p.2) ∧
    (∀ cfg s b av, s.external_trades = [] → b.pos = 0 →
      cfg.min_bars ≤ b.barsSoFar → b.adx = some av → cfg.adx_threshold < av →
      (dayRoll s b.date).trades_today < cfg.max_trades_per_day →
      (b.gauss_prev < b.gauss ∧ b.vapi_prev < b.vapi ∧ b.smma < b.close ∧
        b.gauss < b.close ∧ b.swing_low < b.close) →
      determine_size cfg b.equity b.close b.swing_low false = some 0 →
      next cfg s b = some ({ dayRoll s b.date with
        exit_order := false, close_reason := "" }, [])) ∧
    (∀ cfg s b av, s.external_trades = [] → b.pos = 0 →
      cfg.min_bars ≤ b.barsSoFar → b.adx = some av → cfg.adx_threshold < av →
      (dayRoll s b.date).trades_today < cfg.max_trades_per_day →
      (¬ b.gauss_prev < b.gauss ∧ ¬ b.vapi_prev < b.vapi ∧ b.close < b.smma ∧
        b.close < b.gauss ∧ b.close < b.swing_high) →
      determine_size cfg b.equity b.close b.swing_high true = some 0 →
      next cfg s b = some ({ dayRoll s b.date with
        exit_order := false, close_reason := "" }, [])) := by
  refine ⟨next_trades_acct, ?_, ?_⟩
  · intro cfg s b av hext hpos hw hav hgt hcap hcond hsize
    rw [next_guards_pass cfg s b av hext hw hav hgt hcap, if_pos hpos]
    obtain ⟨h1, h2, h3, h4, h5⟩ := hcond
    simp only [flatStep, hsize]
    rw [if_pos ⟨h1, h2, h3, h4, h5⟩, if_neg (lt_irrefl (0 : ℤ))]
    simp only [shortEntryStep]
    rw [if_neg (fun hc => absurd h1 hc.1)]
  · intro cfg s b av hext hpos hw hav hgt hcap hcond hsize
    rw [next_guards_pass cfg s b av hext hw hav hgt hcap, if_pos hpos]
    obtain ⟨h1, h2, h3, h4, h5⟩ := hcond
    simp only [flatStep, shortEntryStep, hsize]
    rw [if_neg (fun hc => absurd hc.1 h1), if_pos ⟨h1, h2, h3, h4, h5⟩,
      if_neg (lt_irrefl (0 : ℤ))]

/-- A flat starting state with no pending external trades. -/
def c9s : StratState := initState []

/-- A bar with a valid long signal but a tiny account (equity 100), so
risk-based sizing floors to 0. -/
def c9bar : Bar :=
  { date := 1, barsSoFar := 300, close := 400, prev_close := 399, high := 401,
    low := 398, gauss := 2, gauss_prev := 1, kijun := 300, kijun_prev := 300,
    vapi := 2, vapi_prev := 1, adx := some 25, smma := 300, atr := 2,
    swing_low := 390, swing_high := 500, pos := 0, equity := 100 }

/-- A bar with a valid short signal but a tiny account (equity 100), so
risk-based sizing floors to 0. -/
def c9sbar : Bar :=
  { date := 1, barsSoFar := 300, close := 400, prev_close := 401, high := 402,
    low := 399, gauss := 450, gauss_prev := 460, kijun := 500, kijun_prev := 500,
    vapi := 1, vapi_prev := 2, adx := some 25, smma := 500, atr := 2,
    swing_low := 300, swing_high := 410, pos := 0, equity := 100 }

/-- C9 witness: on `c9bar` the long signal fires and on `c9sbar` the short
signal fires; in both cases the sizer returns 0 and `next` emits nothing
while leaving the daily counter unchanged. -/
theorem C9_size_zero_entry_witness :
    next cfg0risk c9s c9bar = some ({ dayRoll c9s c9bar.date with
      exit_order := false, close_reason := "" }, []) ∧
    next cfg0risk c9s c9sbar = some ({ dayRoll c9s c9sbar.date with
      exit_order := false, close_reason := "" }, []) :=
  ⟨C9_size_zero_entry.2.1 cfg0risk c9s c9bar 25 rfl rfl
    (by norm_num [c9bar, cfg0risk, cfg0]) rfl (by norm_num [cfg0risk, cfg0])
    (by simp [dayRoll, c9s, c9bar, initState, cfg0risk, cfg0])
    (by refine ⟨?_, ?_, ?_, ?_, ?_⟩ <;> norm_num [c9bar])
    (by norm_num [determine_size, calculate_size, cfg0risk, cfg0, rabs_eq,
      rfloor_eq, imax_eq, c9bar]),
   C9_size_zero_entry.2.2 cfg0risk c9s c9sbar 25 rfl rfl
    (by norm_num [c9sbar, cfg0risk, cfg0]) rfl (by norm_num [cfg0risk, cfg0])
    (by simp [dayRoll, c9s, c9sbar, initState, cfg0risk, cfg0])
    (by refine ⟨?_, ?_, ?_, ?_, ?_⟩ <;> norm_num [c9sbar])
    (by norm_num [determine_size, calculate_size, cfg0risk, cfg0, rabs_eq,
      rfloor_eq, imax_eq, c9sbar])⟩

theorem UPM_long (cfg : TradingConfig) (s : StratState) (pos : ℤ)
    (c h l k e st r : ℚ) (hep : s.entry_price = some e)
    (hsp : s.stop_price = some st) (her : s.entry_risk = some r)
    (hpos : 0 < pos) :
    update_position_management cfg s pos c h l k = mgmtLong cfg s pos e st r c h := by
  rw [update_position_management, hep, hsp, her]
  exact if_pos hpos

theorem UPM_short (cfg : TradingConfig) (s : StratState) (pos : ℤ)
    (c h l k e st r : ℚ) (hep : s.entry_price = some e)
    (hsp : s.stop_price = some st) (her : s.entry_risk = some r)
    (hpos : ¬ 0 < pos) :
    update_position_management cfg s pos c h l k = mgmtShort cfg s pos e st r c l := by
  rw [update_position_management, hep, hsp, her]
  exact if_neg hpos

/-- C4 (amended): (i) at most one full-close order intent is emitted per bar;
(ii)/(iii) both exit conditions are evaluated while a position is open, but
the stop-loss check (inside `_update_position_management`) runs BEFORE the
trend-break check: on a bar where both the stop-loss condition (against the
bar's updated stop) and the two-bar trend-break condition hold, the stop-loss
fires, sets `close_reason` to the stop-loss reason, and thereby suppresses the
trend-break close for that bar — for longs (ii) and shorts (iii) alike. -/
theorem C4_amended :
    (∀ cfg s b p, next cfg s b = some p → countClose p.2 ≤ 1) ∧
    (∀ cfg s b p av e st r, s.external_trades = [] → 0 < b.pos →
      s.close_reason = "" → s.entry_price = some e → s.stop_price = some st →
      s.entry_risk = some r → cfg.min_bars ≤ b.barsSoFar → b.adx = some av →
      cfg.adx_threshold < av →
      (dayRoll s b.date).trades_today < cfg.max_trades_per_day →
      next cfg s b = some p →
      b.close ≤ p.1.stop_price.getD 0 →
      b.close < b.kijun → b.prev_close < b.kijun_prev →
      p.1.close_reason = "Stop loss LONG" ∧ countClose p.2 = 1) ∧
    (∀ cfg s b p av e st r, s.external_trades = [] → b.pos < 0 →
      s.close_reason = "" → s.entry_price = some e → s.stop_price = some st →
      s.entry_risk = some r → cfg.min_bars ≤ b.barsSoFar → b.adx = some av →
      cfg.adx_threshold < av →
      (dayRoll s b.date).trades_today < cfg.max_trades_per_day →
      next cfg s b = some p →
      p.1.stop_price.getD 0 ≤ b.close →
      b.kijun < b.close → b.kijun_prev < b.prev_close →
      p.1.close_reason = "Stop loss SHORT" ∧ countClose p.2 = 1) := by
  refine ⟨?_, ?_, ?_⟩
  · intro cfg s b p h
    rcases next_elim cfg s b p h with hcase | ⟨t, size, hscan, hcase | hcase⟩ |
      ⟨hpos, hflat⟩ | ⟨hpos, hcase⟩
    · rw [hcase]
      exact Nat.zero_le 1
    · rw [hcase, (enter_long_facts cfg _ b.close size b.swing_low b.atr).2.2.2.1]
      exact Nat.zero_le 1
    · rw [hcase, (enter_short_facts cfg _ b.close size b.swing_high b.atr).2.2.2.1]
      exact Nat.zero_le 1
    · rw [(flatStep_facts cfg (dayRoll s b.date) b p hflat).2.2.2.1]
      exact Nat.zero_le 1
    · rw [hcase]
      exact (openStep_facts cfg (dayRoll s b.date) b).2.2.2.1
  · intro cfg s b p av e st r hext hpos hre hep hsp her hw hav hgt hcap h hstop htb1 htb2
    have hne : ¬ b.pos = 0 := by omega
    rw [next_guards_pass cfg s b av hext hw hav hgt hcap, if_neg hne] at h
    obtain rfl := (Option.some.inj h).symm
    have hUeq : update_position_management cfg (dayRoll s b.date) b.pos b.close
        b.high b.low b.kijun =
        mgmtLong cfg (dayRoll s b.date) b.pos e st r b.close b.high :=
      UPM_long cfg (dayRoll s b.date) b.pos b.close b.high b.low b.kijun e st r
        (by rw [dayRoll_entry_price]; exact hep)
        (by rw [dayRoll_stop_price]; exact hsp)
        (by rw [dayRoll_entry_risk]; exact her) hpos
    have hstopeq : (openStep cfg (dayRoll s b.date) b).1.stop_price =
        (mgmtLong cfg (dayRoll s b.date) b.pos e st r b.close b.high).1.stop_price := by
      simp only [openStep, hUeq]
      split_ifs <;> rfl
    rw [hstopeq] at hstop
    have hfire := mgmtLong_stop_fire cfg (dayRoll s b.date) b.pos e st r
      b.close b.high (by rw [dayRoll_close_reason]; exact hre) hstop
    have hopen : openStep cfg (dayRoll s b.date) b =
        mgmtLong cfg (dayRoll s b.date) b.pos e st r b.close b.high := by
      simp only [openStep, hUeq]
      rw [if_neg, if_neg]
      · rintro ⟨hneg, -⟩
        omega
      · rintro ⟨-, -, -, hempty⟩
        rw [hfire.1] at hempty
        exact absurd hempty (by decide)
    rw [hopen]
    exact hfire
  · intro cfg s b p av e st r hext hpos hre hep hsp her hw hav hgt hcap h hstop htb1 htb2
    have hne : ¬ b.pos = 0 := by omega
    rw [next_guards_pass cfg s b av hext hw hav hgt hcap, if_neg hne] at h
    obtain rfl := (Option.some.inj h).symm
    have hUeq : update_position_management cfg (dayRoll s b.date) b.pos b.close
        b.high b.low b.kijun =
        mgmtShort cfg (dayRoll s b.date) b.pos e st r b.close b.low :=
      UPM_short cfg (dayRoll s b.date) b.pos b.close b.high b.low b.kijun e st r
        (by rw [dayRoll_entry_price]; exact hep)
        (by rw [dayRoll_stop_price]; exact hsp)
        (by rw [dayRoll_entry_risk]; exact her) (by omega)
    have hstopeq : (openStep cfg (dayRoll s b.date) b).1.stop_price =
        (mgmtShort cfg (dayRoll s b.date) b.pos e st r b.close b.low).1.stop_price := by
      simp only [openStep, hUeq]
      split_ifs <;> rfl
    rw [hstopeq] at hstop
    have hfire := mgmtShort_stop_fire cfg (dayRoll s b.date) b.pos e st r
      b.close b.low (by rw [dayRoll_close_reason]; exact hre) hstop
    have hopen : openStep cfg (dayRoll s b.date) b =
        mgmtShort cfg (dayRoll s b.date) b.pos e st r b.close b.low := by
      simp only [openStep, hUeq]
      rw [if_neg, if_neg]
      · rintro ⟨-, -, -, hempty⟩
        rw [hfire.1] at hempty
        exact absurd hempty (by decide)
      · rintro ⟨hneg, -⟩
        omega
    rw [hopen]
    exact hfire

/-- An open long position: entry 100, stop 98, risk 2, entry ATR 1, TP far
away at 200, nothing in flight. -/
def c4s : StratState :=
  { today := some 1
    trades_today := 1
    entry_price := some 100
    stop_price := some 98
    initial_atr := some 1
    entry_risk := some 2
    tp_price := some 200
    breakeven_active := false
    highest_since_entry := some 100
    lowest_since_entry := none
    close_reason := ""
    entry_order := true
    exit_order := false
    external_trades := []
    executed_external := [] }

/-- A bar on which BOTH exit conditions hold for the long in `c4s`: the close
(95) is through the stop (98), and close < kijun (97) with the previous close
(96) also below the previous kijun (97) — the two-bar trend-break. -/
def c4bar : Bar :=
  { date := 1, barsSoFar := 300, close := 95, prev_close := 96, high := 95,
    low := 94, gauss := 1, gauss_prev := 1, kijun := 97, kijun_prev := 97,
    vapi := 1, vapi_prev := 1, adx := some 25, smma := 1, atr := 1,
    swing_low := 80, swing_high := 200, pos := 5, equity := 100000 }

/-- C4 counterexample: on a bar where the stop-loss condition and the two-bar
trend-break condition both hold, the code sets `close_reason` to the stop-loss
reason (the stop-loss check runs first, inside management) and suppresses the
trend-break — the claim says trend-break is checked before stop-loss and wins. -/
theorem C4_counterexample :
    (c4bar.close < c4bar.kijun ∧ c4bar.prev_close < c4bar.kijun_prev) ∧
    c4bar.close ≤ 98 ∧
    ("Stop loss LONG" : String) ≠ "Trendbreak LONG (close under Kijun)" ∧
    Option.map (fun p => (p.1.close_reason, p.1.stop_price, countClose p.2))
      (next cfg0 c4s c4bar) = some ("Stop loss LONG", some 98, 1) := by
  refine ⟨⟨by norm_num [c4bar], by norm_num [c4bar]⟩, by norm_num [c4bar],
    by decide, ?_⟩
  have hs : ¬ ("Stop loss LONG" : String) = "" := by decide
  norm_num [next, dayRoll, c4s, c4bar, cfg0, scanExternal, openStep,
    update_position_management, mgmtLong, pyOr, rmax_eq, rmin_eq, rfloor_eq,
    rabs_eq, imax_eq, countClose, Intent.isClose, Intent.isTP1, hs]

/-- The result of `next` on `c4s`/`c4bar`: the stop-loss close fires. -/
def c4p : StratState × List Intent :=
  ({ c4s with close_reason := "Stop loss LONG" }, [Intent.closeAll])

/-- C4 witness: the amended theorem applied at the concrete both-conditions
bar — the stop-loss reason wins and exactly one close intent is emitted. -/
theorem C4_amended_witness :
    c4p.1.close_reason = "Stop loss LONG" ∧ countClose c4p.2 = 1 := by
  have hs : ¬ ("Stop loss LONG" : String) = "" := by decide
  have hnext : next cfg0 c4s c4bar = some c4p := by
    norm_num [c4p, next, dayRoll, c4s, c4bar, cfg0, scanExternal, openStep,
      update_position_management, mgmtLong, pyOr, rmax_eq, rmin_eq, rfloor_eq,
      rabs_eq, imax_eq, hs]
  exact C4_amended.2.1 cfg0 c4s c4bar c4p 25 100 98 2 rfl (by decide) rfl rfl
    rfl rfl (by norm_num [c4bar, cfg0]) rfl (by norm_num [cfg0])
    (by simp [dayRoll, c4s, c4bar, cfg0]) hnext
    (by norm_num [c4p, c4s, c4bar]) (by norm_num [c4bar]) (by norm_num [c4bar])

theorem next_tp1_step (cfg : TradingConfig) (s : StratState) (b : Bar)
    (p : StratState × List Intent) (hext : s.external_trades = [])
    (hpos : b.pos ≠ 0) (h : next cfg s b = some p) :
    p.1.external_trades = [] ∧
    countTP1 p.2 ≤ (if s.exit_order then 0 else 1) ∧
    (p.1.exit_order = false → s.exit_order = false ∧ countTP1 p.2 = 0) := by
  rcases next_elim cfg s b p h with hcase | ⟨t, size, hscan, _⟩ |
    ⟨hp0, _⟩ | ⟨_, hcase⟩
  · rw [hcase]
    refine ⟨by rw [dayRoll_external_trades]; exact hext, ?_, ?_⟩
    · cases he : s.exit_order <;> simp [countTP1]
    · intro hf
      rw [dayRoll_exit_order] at hf
      exact ⟨hf, rfl⟩
  · rw [dayRoll_external_trades, hext] at hscan
    exact absurd hscan (by simp [scanExternal])
  · exact absurd hp0 hpos
  · obtain ⟨_, o2, _, _, o5, o6⟩ := openStep_facts cfg (dayRoll s b.date) b
    rw [hcase]
    refine ⟨by rw [o2, dayRoll_external_trades]; exact hext, ?_, ?_⟩
    · rw [dayRoll_exit_order] at o5
      exact o5
    · intro hf
      obtain ⟨h1, h2⟩ := o6 hf
      rw [dayRoll_exit_order] at h1
      exact ⟨h1, h2⟩

/-- C2 (amended): across any run of bars on which a position stays open (and
no order notification clears the in-flight exit order, and no external trade
fires), at most one TP1 partial-exit order intent is emitted in total — none
at all if an exit order is already in flight at the start.  (A new partial
intent CAN be emitted again after `notify_order` clears the completed or
cancelled exit order; see the counterexample.) -/
theorem C2_amended :
    ∀ cfg s bars p, s.external_trades = [] → (∀ b ∈ bars, b.pos ≠ 0) →
      runBars cfg s bars = some p →
      countTP1 p.2 ≤ (if s.exit_order then 0 else 1) := by
  intro cfg s bars
  induction bars generalizing s with
  | nil =>
    intro p _ _ h
    obtain rfl := (Option.some.inj h).symm
    cases s.exit_order <;> simp [countTP1]
  | cons b bs ih =>
    intro p hext hall h
    simp only [runBars] at h
    rcases hn : next cfg s b with _ | q
    · rw [hn] at h
      exact Option.noConfusion h
    · rw [hn] at h
      rcases q with ⟨s1, out1⟩
      dsimp only at h
      rcases hr : runBars cfg s1 bs with _ | w
      · rw [hr] at h
        exact Option.noConfusion h
      · rw [hr] at h
        rcases w with ⟨s2, out2⟩
        dsimp only at h
        obtain rfl := (Option.some.inj h).symm
        obtain ⟨stepExt, stepBound, stepLink⟩ :=
          next_tp1_step cfg s b (s1, out1) hext (hall b (List.mem_cons_self b bs)) hn
        have rest := ih s1 (s2, out2) stepExt (fun x hx => hall x (List.mem_cons_of_mem b hx)) hr
        rw [countTP1_append]
        by_cases he : s.exit_order = true
        · have h1 : countTP1 out1 = 0 := Nat.le_zero.mp (by simpa [he] using stepBound)
          have h2 : s1.exit_order = true := by
            by_contra hft
            have hfalse : s1.exit_order = false := by
              cases hx : s1.exit_order
              · rfl
              · exact absurd hx hft
            rw [(stepLink hfalse).1] at he
            exact Bool.noConfusion he
          have h3 : countTP1 out2 = 0 := Nat.le_zero.mp (by simpa [h2] using rest)
          simp [h1, h3, he]
        · by_cases hf1 : s1.exit_order = true
          · have h3 : countTP1 out2 = 0 := Nat.le_zero.mp (by simpa [hf1] using rest)
            have h1 : countTP1 out1 ≤ 1 := by simpa [he] using stepBound
            simp [h3, he]
            omega
          · have hfalse : s1.exit_order = false := by
              cases hx : s1.exit_order
              · rfl
              · exact absurd hx hf1
            have h1 : countTP1 out1 = 0 := (stepLink hfalse).2
            have h3 : countTP1 out2 ≤ 1 := le_trans rest (by simp [hfalse])
            simp [h1, he]
            omega

/-- An open long position of 10 contracts: entry 100, stop 90, risk 10, entry
ATR 2, TP1 at 120 (2R), no exit order in flight. -/
def c2s : StratState :=
  { today := some 1
    trades_today := 1
    entry_price := some 100
    stop_price := some 90
    initial_atr := some 2
    entry_risk := some 10
    tp_price := some 120
    breakeven_active := false
    highest_since_entry := some 100
    lowest_since_entry := none
    close_reason := ""
    entry_order := true
    exit_order := false
    external_trades := []
    executed_external := [] }

/-- A bar whose high (125) is through the TP level (120) while the close
(119) keeps the position alive (above the trailed stop 117, below the
breakeven trigger 120, no trend-break). -/
def c2bar : Bar :=
  { date := 1, barsSoFar := 300, close := 119, prev_close := 118, high := 125,
    low := 118, gauss := 1, gauss_prev := 1, kijun := 50, kijun_prev := 50,
    vapi := 1, vapi_prev := 1, adx := some 25, smma := 1, atr := 1,
    swing_low := 80, swing_high := 200, pos := 10, equity := 100000 }

/-- State after the first TP1 intent: trailed stop 117, high-water 125, exit
order in flight. -/
def c2s1x : StratState :=
  { c2s with
    stop_price := some 117
    highest_since_entry := some 125
    exit_order := true }

/-- `c2s1x` after `notify_order` reports the TP1 order as completed. -/
def c2s2x : StratState := { c2s1x with exit_order := false }

theorem c2_eval1 :
    next cfg0 c2s c2bar = some (c2s1x, [Intent.tp1 false 3 120]) := by
  norm_num [next, dayRoll, c2s, c2bar, c2s1x, cfg0, scanExternal, openStep,
    update_position_management, mgmtLong, pyOr, rmax_eq, rmin_eq, rfloor_eq,
    rabs_eq, imax_eq]

/-- C2 counterexample: the TP level is hit and a TP1 partial-exit intent is
emitted; after the broker reports that order completed (clearing
`exit_order`), the TP level being reached again on a later bar emits a SECOND
TP1 partial-exit intent for the same position — there is no
`partial_exit_done` latch in the code, refuting "at most one partial
take-profit order intent is emitted per position over its entire lifetime". -/
theorem C2_counterexample :
    c2bar.pos ≠ 0 ∧
    next cfg0 c2s c2bar = some (c2s1x, [Intent.tp1 false 3 120]) ∧
    notify_order c2s1x true OrderStatus.completed = c2s2x ∧
    next cfg0 c2s2x c2bar = some (c2s1x, [Intent.tp1 false 3 120]) := by
  refine ⟨by decide, c2_eval1, ?_, ?_⟩
  · simp [notify_order, c2s1x, c2s2x, c2s]
  · norm_num [next, dayRoll, c2s, c2bar, c2s1x, c2s2x, cfg0, scanExternal,
      openStep, update_position_management, mgmtLong, pyOr, rmax_eq, rmin_eq,
      rfloor_eq, rabs_eq, imax_eq]

/-- C2 witness: the amended theorem applied to the single-bar run from `c2s`:
it emits one TP1 intent, within the bound of one. -/
theorem C2_amended_witness :
    countTP1 [Intent.tp1 false 3 120] ≤ if c2s.exit_order then 0 else 1 := by
  have hrun : runBars cfg0 c2s [c2bar] =
      some (c2s1x, [Intent.tp1 false 3 120]) := by
    simp only [runBars, c2_eval1, List.append_nil]
  exact C2_amended cfg0 c2s [c2bar] (c2s1x, [Intent.tp1 false 3 120]) rfl
    (by intro x hx; simp only [List.mem_singleton] at hx; subst hx; decide)
    hrun

/-- The inductive invariant for an open long position: the management fields
are set, the high-water mark is positive (so Python's `or`-fallback never
kicks in), and the stop is above entry only when justified by the trailing
formula — exactly the configurations reachable from `_enter_long` with a
positive entry risk. -/
def LongInv (cfg : TradingConfig) (s : StratState) : Prop :=
  ∃ e st hi a, s.entry_price = some e ∧ s.stop_price = some st ∧
    s.highest_since_entry = some hi ∧ s.initial_atr = some a ∧
    s.entry_risk.isSome = true ∧ 0 < hi ∧
    (st ≤ e ∨ st ≤ hi - a * cfg.trailing_atr_mult)

/-- Mirror invariant for an open short position. -/
def ShortInv (cfg : TradingConfig) (s : StratState) : Prop :=
  ∃ e st lo a, s.entry_price = some e ∧ s.stop_price = some st ∧
    s.lowest_since_entry = some lo ∧ s.initial_atr = some a ∧
    s.entry_risk.isSome = true ∧ 0 < lo ∧
    (e ≤ st ∨ lo + a * cfg.trailing_atr_mult ≤ st)

theorem mgmtLong_stop_mono (cfg : TradingConfig) (s : StratState) (pos : ℤ)
    (e st r c h hi a : ℚ)
    (hhi : s.highest_since_entry = some hi) (hia : s.initial_atr = some a)
    (hhi0 : 0 < hi)
    (hdisj : st ≤ e ∨ st ≤ hi - a * cfg.trailing_atr_mult) :
    ∃ st' hi',
      (mgmtLong cfg s pos e st r c h).1.stop_price = some st' ∧
      (mgmtLong cfg s pos e st r c h).1.highest_since_entry = some hi' ∧
      st ≤ st' ∧ hi ≤ hi' ∧ 0 < hi' ∧
      (st' ≤ e ∨ st' ≤ hi' - a * cfg.trailing_atr_mult) := by
  have hne : hi ≠ 0 := ne_of_gt hhi0
  simp only [mgmtLong, hhi, hia, pyOr, hne, if_false, rmax_eq]
  refine ⟨_, _, rfl, rfl, ?_, le_max_left hi h,
    lt_of_lt_of_le hhi0 (le_max_left hi h), ?_⟩
  · rcases hdisj with hd | hd <;> split_ifs <;>
      linarith [le_max_left hi h, le_max_right hi h]
  · split_ifs with hB hT hT
    · exact Or.inr (le_refl _)
    · exact Or.inl (le_refl e)
    · exact Or.inr (le_refl _)
    · rcases hdisj with hd | hd
      · exact Or.inl hd
      · exact Or.inr (by linarith [le_max_left hi h])

theorem mgmtShort_stop_mono (cfg : TradingConfig) (s : StratState) (pos : ℤ)
    (e st r c l lo a : ℚ)
    (hlo : s.lowest_since_entry = some lo) (hia : s.initial_atr = some a)
    (hlo0 : 0 < lo) (hl0 : 0 < l)
    (hdisj : e ≤ st ∨ lo + a * cfg.trailing_atr_mult ≤ st) :
    ∃ st' lo',
      (mgmtShort cfg s pos e st r c l).1.stop_price = some st' ∧
      (mgmtShort cfg s pos e st r c l).1.lowest_since_entry = some lo' ∧
      st' ≤ st ∧ lo' ≤ lo ∧ 0 < lo' ∧
      (e ≤ st' ∨ lo' + a * cfg.trailing_atr_mult ≤ st') := by
  have hne : lo ≠ 0 := ne_of_gt hlo0
  simp only [mgmtShort, hlo, hia, pyOr, hne, if_false, rmin_eq]
  refine ⟨_, _, rfl, rfl, ?_, min_le_left lo l, lt_min hlo0 hl0, ?_⟩
  · rcases hdisj with hd | hd <;> split_ifs <;>
      linarith [min_le_left lo l, min_le_right lo l]
  · split_ifs with hB hT hT
    · exact Or.inr (le_refl _)
    · exact Or.inl (le_refl e)
    · exact Or.inr (le_refl _)
    · rcases hdisj with hd | hd
      · exact Or.inl hd
      · exact Or.inr (by linarith [min_le_left lo l])

theorem openStep_proj (cfg : TradingConfig) (s : StratState) (b : Bar) :
    (openStep cfg s b).1.stop_price =
      (update_position_management cfg s b.pos b.close b.high b.low b.kijun).1.stop_price ∧
    (openStep cfg s b).1.entry_price =
      (update_position_management cfg s b.pos b.close b.high b.low b.kijun).1.entry_price ∧
    (openStep cfg s b).1.highest_since_entry =
      (update_position_management cfg s b.pos b.close b.high b.low b.kijun).1.highest_since_entry ∧
    (openStep cfg s b).1.lowest_since_entry =
      (update_position_management cfg s b.pos b.close b.high b.low b.kijun).1.lowest_since_entry ∧
    (openStep cfg s b).1.initial_atr =
      (update_position_management cfg s b.pos b.close b.high b.low b.kijun).1.initial_atr ∧
    (openStep cfg s b).1.entry_risk =
      (update_position_management cfg s b.pos b.close b.high b.low b.kijun).1.entry_risk := by
  simp only [openStep]
  split_ifs <;> exact ⟨rfl, rfl, rfl, rfl, rfl, rfl⟩

theorem next_long_inv (cfg : TradingConfig) (s : StratState) (b : Bar)
    (p : StratState × List Intent) (hext : s.external_trades = [])
    (hpos : 0 < b.pos) (hInv : LongInv cfg s) (h : next cfg s b = some p) :
    LongInv cfg p.1 ∧ stopVal s ≤ stopVal p.1 ∧ p.1.external_trades = [] := by
  obtain ⟨e, st, hi, a, hep, hsp, hhi, hia, hrs, hhi0, hdisj⟩ := hInv
  rcases next_elim cfg s b p h with hcase | ⟨t, size, hscan, _⟩ |
    ⟨hp0, _⟩ | ⟨_, hcase⟩
  · rw [hcase]
    refine ⟨⟨e, st, hi, a, ?_, ?_, ?_, ?_, ?_, hhi0, hdisj⟩, ?_, ?_⟩ <;>
      simp [stopVal, hep, hsp, hhi, hia, hrs, hext]
  · rw [dayRoll_external_trades, hext] at hscan
    exact absurd hscan (by simp [scanExternal])
  · omega
  · obtain ⟨r, her⟩ := Option.isSome_iff_exists.mp hrs
    have hU : update_position_management cfg (dayRoll s b.date) b.pos b.close
        b.high b.low b.kijun =
        mgmtLong cfg (dayRoll s b.date) b.pos e st r b.close b.high :=
      UPM_long cfg (dayRoll s b.date) b.pos b.close b.high b.low b.kijun e st r
        (by rw [dayRoll_entry_price]; exact hep)
        (by rw [dayRoll_stop_price]; exact hsp)
        (by rw [dayRoll_entry_risk]; exact her) hpos
    obtain ⟨st', hi', hst', hhi', hmono, _, hhi0', hdisj'⟩ :=
      mgmtLong_stop_mono cfg (dayRoll s b.date) b.pos e st r b.close b.high hi a
        (by rw [dayRoll_highest_since_entry]; exact hhi)
        (by rw [dayRoll_initial_atr]; exact hia) hhi0 hdisj
    obtain ⟨o1, o2, o3, _, o5, o6⟩ := openStep_proj cfg (dayRoll s b.date) b
    rw [hcase]
    refine ⟨⟨e, st', hi', a, ?_, ?_, ?_, ?_, ?_, hhi0', hdisj'⟩, ?_, ?_⟩
    · rw [o2, hU, mgmtLong_entry_price, dayRoll_entry_price]
      exact hep
    · rw [o1, hU]
      exact hst'
    · rw [o3, hU]
      exact hhi'
    · rw [o5, hU, mgmtLong_initial_atr, dayRoll_initial_atr]
      exact hia
    · rw [o6, hU, mgmtLong_entry_risk, dayRoll_entry_risk]
      exact hrs
    · rw [stopVal, stopVal, hsp, o1, hU, hst']
      exact hmono
    · have := (openStep_facts cfg (dayRoll s b.date) b).2.1
      rw [this, dayRoll_external_trades]
      exact hext

theorem next_short_inv (cfg : TradingConfig) (s : StratState) (b : Bar)
    (p : StratState × List Intent) (hext : s.external_trades = [])
    (hpos : b.pos < 0) (hl0 : 0 < b.low) (hInv : ShortInv cfg s)
    (h : next cfg s b = some p) :
    ShortInv cfg p.1 ∧ stopVal p.1 ≤ stopVal s ∧ p.1.external_trades = [] := by
  obtain ⟨e, st, lo, a, hep, hsp, hlo, hia, hrs, hlo0, hdisj⟩ := hInv
  rcases next_elim cfg s b p h with hcase | ⟨t, size, hscan, _⟩ |
    ⟨hp0, _⟩ | ⟨_, hcase⟩
  · rw [hcase]
    refine ⟨⟨e, st, lo, a, ?_, ?_, ?_, ?_, ?_, hlo0, hdisj⟩, ?_, ?_⟩ <;>
      simp [stopVal, hep, hsp, hlo, hia, hrs, hext]
  · rw [dayRoll_external_trades, hext] at hscan
    exact absurd hscan (by simp [scanExternal])
  · omega
  · obtain ⟨r, her⟩ := Option.isSome_iff_exists.mp hrs
    have hU : update_position_management cfg (dayRoll s b.date) b.pos b.close
        b.high b.low b.kijun =
        mgmtShort cfg (dayRoll s b.date) b.pos e st r b.close b.low :=
      UPM_short cfg (dayRoll s b.date) b.pos b.close b.high b.low b.kijun e st r
        (by rw [dayRoll_entry_price]; exact hep)
        (by rw [dayRoll_stop_price]; exact hsp)
        (by rw [dayRoll_entry_risk]; exact her) (by omega)
    obtain ⟨st', lo', hst', hlo', hmono, _, hlo0', hdisj'⟩ :=
      mgmtShort_stop_mono cfg (dayRoll s b.date) b.pos e st r b.close b.low lo a
        (by rw [dayRoll_lowest_since_entry]; exact hlo)
        (by rw [dayRoll_initial_atr]; exact hia) hlo0 hl0 hdisj
    obtain ⟨o1, o2, _, o4, o5, o6⟩ := openStep_proj cfg (dayRoll s b.date) b
    rw [hcase]
    refine ⟨⟨e, st', lo', a, ?_, ?_, ?_, ?_, ?_, hlo0', hdisj'⟩, ?_, ?_⟩
    · rw [o2, hU, mgmtShort_entry_price, dayRoll_entry_price]
      exact hep
    · rw [o1, hU]
      exact hst'
    · rw [o4, hU]
      exact hlo'
    · rw [o5, hU, mgmtShort_initial_atr, dayRoll_initial_atr]
      exact hia
    · rw [o6, hU, mgmtShort_entry_risk, dayRoll_entry_risk]
      exact hrs
    · rw [stopVal, stopVal, hsp, o1, hU, hst']
      exact hmono
    · have := (openStep_facts cfg (dayRoll s b.date) b).2.1
      rw [this, dayRoll_external_trades]
      exact hext

theorem runBars_long_mono (cfg : TradingConfig) (bars : List Bar) :
    ∀ s p, s.external_trades = [] → (∀ b ∈ bars, 0 < b.pos) →
      LongInv cfg s → runBars cfg s bars = some p →
      stopVal s ≤ stopVal p.1 := by
  induction bars with
  | nil =>
    intro s p _ _ _ h
    obtain rfl := (Option.some.inj h).symm
    exact le_refl _
  | cons b bs ih =>
    intro s p hext hall hInv h
    simp only [runBars] at h
    rcases hn : next cfg s b with _ | q
    · rw [hn] at h
      exact Option.noConfusion h
    · rw [hn] at h
      rcases q with ⟨s1, out1⟩
      dsimp only at h
      rcases hr : runBars cfg s1 bs with _ | w
      · rw [hr] at h
        exact Option.noConfusion h
      · rw [hr] at h
        rcases w with ⟨s2, out2⟩
        dsimp only at h
        obtain rfl := (Option.some.inj h).symm
        obtain ⟨hInv1, hmono1, hext1⟩ :=
          next_long_inv cfg s b (s1, out1) hext
            (hall b (List.mem_cons_self b bs)) hInv hn
        exact le_trans hmono1
          (ih s1 (s2, out2) hext1
            (fun x hx => hall x (List.mem_cons_of_mem b hx)) hInv1 hr)

theorem runBars_short_mono (cfg : TradingConfig) (bars : List Bar) :
    ∀ s p, s.external_trades = [] → (∀ b ∈ bars, b.pos < 0 ∧ 0 < b.low) →
      ShortInv cfg s → runBars cfg s bars = some p →
      stopVal p.1 ≤ stopVal s := by
  induction bars with
  | nil =>
    intro s p _ _ _ h
    obtain rfl := (Option.some.inj h).symm
    exact le_refl _
  | cons b bs ih =>
    intro s p hext hall hInv h
    simp only [runBars] at h
    rcases hn : next cfg s b with _ | q
    · rw [hn] at h
      exact Option.noConfusion h
    · rw [hn] at h
      rcases q with ⟨s1, out1⟩
      dsimp only at h
      rcases hr : runBars cfg s1 bs with _ | w
      · rw [hr] at h
        exact Option.noConfusion h
      · rw [hr] at h
        rcases w with ⟨s2, out2⟩
        dsimp only at h
        obtain rfl := (Option.some.inj h).symm
        obtain ⟨hInv1, hmono1, hext1⟩ :=
          next_short_inv cfg s b (s1, out1) hext
            (hall b (List.mem_cons_self b bs)).1
            (hall b (List.mem_cons_self b bs)).2 hInv hn
        exact le_trans
          (ih s1 (s2, out2) hext1
            (fun x hx => hall x (List.mem_cons_of_mem b hx)) hInv1 hr)
          hmono1

/-- C1 (amended): for every position whose entry has POSITIVE entry risk
(stop on the favourable side of the entry close, positive close price) —
which `_enter_long` / `_enter_short` establish as the invariant `LongInv` /
`ShortInv` — the stop price is monotonically non-adverse across all
subsequent bars processed while the position stays open (no external
override pending; for shorts, bar lows positive): it never decreases for a
long and never increases for a short.  (Positions created through the
external-override path with a non-positive entry risk can violate this; see
the counterexample.) -/
theorem C1_amended :
    (∀ cfg s close size stp atr, stp < close → 0 < close →
      LongInv cfg (enter_long cfg s close size stp atr).1) ∧
    (∀ cfg s bars p, s.external_trades = [] → (∀ b ∈ bars, 0 < b.pos) →
      LongInv cfg s → runBars cfg s bars = some p →
      stopVal s ≤ stopVal p.1) ∧
    (∀ cfg s close size stp atr, close < stp → 0 < close →
      ShortInv cfg (enter_short cfg s close size stp atr).1) ∧
    (∀ cfg s bars p, s.external_trades = [] →
      (∀ b ∈ bars, b.pos < 0 ∧ 0 < b.low) →
      ShortInv cfg s → runBars cfg s bars = some p →
      stopVal p.1 ≤ stopVal s) := by
  refine ⟨?_, ?_, ?_, ?_⟩
  · intro cfg s close size stp atr hlt hpos
    exact ⟨close, stp, close, atr, rfl, rfl, rfl, rfl, rfl, hpos,
      Or.inl (le_of_lt hlt)⟩
  · intro cfg s bars p hext hall hInv h
    exact runBars_long_mono cfg bars s p hext hall hInv h
  · intro cfg s close size stp atr hlt hpos
    exact ⟨close, stp, close, atr, rfl, rfl, rfl, rfl, rfl, hpos,
      Or.inl (le_of_lt hlt)⟩
  · intro cfg s bars p hext hall hInv h
    exact runBars_short_mono cfg bars s p hext hall hInv h

/-- First bar: the pending external long at 100 is applied (close 100 within
half an ATR), but the swing low used as the stop is 105, ABOVE the close —
the override path performs no `swing_low < close` sanity check, creating a
long position with entry risk −5. -/
def c1bar1 : Bar :=
  { date := 1, barsSoFar := 200, close := 100, prev_close := 100, high := 100,
    low := 99, gauss := 1, gauss_prev := 1, kijun := 50, kijun_prev := 50,
    vapi := 1, vapi_prev := 1, adx := some 25, smma := 1, atr := 2,
    swing_low := 105, swing_high := 200, pos := 0, equity := 100000 }

/-- Second bar: the position is open (pos = 5); close 101 is above the
breakeven trigger 90 (= entry + 2·(−5)), so breakeven fires. -/
def c1bar2 : Bar :=
  { date := 1, barsSoFar := 201, close := 101, prev_close := 100, high := 101,
    low := 100, gauss := 1, gauss_prev := 1, kijun := 50, kijun_prev := 50,
    vapi := 1, vapi_prev := 1, adx := some 25, smma := 1, atr := 2,
    swing_low := 105, swing_high := 200, pos := 5, equity := 100000 }

/-- The state after the external-override long entry on `c1bar1`. -/
def c1s1 : StratState :=
  { today := some 1
    trades_today := 1
    entry_price := some 100
    stop_price := some 105
    initial_atr := some 2
    entry_risk := some (-5)
    tp_price := some 90
    breakeven_active := false
    highest_since_entry := some 100
    lowest_since_entry := none
    close_reason := ""
    entry_order := true
    exit_order := false
    external_trades := [extT]
    executed_external := ["long@100"] }

/-- The state after management on `c1bar2`: breakeven moved the stop DOWN
from 105 to the entry price 100. -/
def c1s2 : StratState :=
  { c1s1 with
    stop_price := some 100
    breakeven_active := true
    highest_since_entry := some 101
    exit_order := true }

/-- C1 counterexample: via the external-override entry path (no sanity check
that the swing-low stop is below the entry), a long position with negative
entry risk is created with stop 105; on the very next bar the breakeven rule
moves the stop DOWN to the entry price 100 — the stop price of a long
position decreases from one bar to the next, refuting the unrestricted claim. -/
theorem C1_counterexample :
    next cfg0 (initState [extT]) c1bar1 = some (c1s1, [Intent.enter true 5]) ∧
    c1s1.stop_price = some 105 ∧ c1bar2.pos = 5 ∧
    next cfg0 c1s1 c1bar2 = some (c1s2, [Intent.tp1 false 1 90]) ∧
    c1s2.stop_price = some 100 ∧ (100 : ℚ) < 105 := by
  have hstr : ¬ ("long@100" : String) = "" := by decide
  have hnone : (none : Option ℕ) ≠ some 1 := fun hc => Option.noConfusion hc
  refine ⟨?_, rfl, rfl, ?_, rfl, by norm_num⟩
  · norm_num [next, dayRoll, initState, c1bar1, c1s1, extT, cfg0, scanExternal,
      determine_size, pytrunc, rfloor_eq, rabs_eq, imax_eq, enter_long, hstr,
      hnone]
  · norm_num [next, dayRoll, c1s1, c1s2, c1bar2, extT, cfg0, scanExternal,
      openStep, update_position_management, mgmtLong, pyOr, rmax_eq, rmin_eq,
      rfloor_eq, rabs_eq, imax_eq, hstr]

/-- C1 witness: the amended theorem applied to the healthy long `c2s`
(entry 100, stop 90, positive risk) over the single bar `c2bar`: the stop
does not decrease (it trails up from 90 to 117). -/
theorem C1_amended_witness :
    stopVal c2s ≤ stopVal c2s1x ∧ LongInv cfg0 c2s := by
  have hInv : LongInv cfg0 c2s :=
    ⟨100, 90, 100, 2, rfl, rfl, rfl, rfl, rfl, by norm_num,
      Or.inl (by norm_num)⟩
  have hrun : runBars cfg0 c2s [c2bar] =
      some (c2s1x, [Intent.tp1 false 3 120]) := by
    simp only [runBars, c2_eval1, List.append_nil]
  exact ⟨C1_amended.2.1 cfg0 c2s [c2bar] (c2s1x, [Intent.tp1 false 3 120]) rfl
    (by intro x hx; simp only [List.mem_singleton] at hx; subst hx; decide)
    hInv hrun, hInv⟩
